import Mathlib

/-!
Shallow embedding of `modern_ui/modern_ui/doctype/bulk_item_import/bulk_item_import.py`
(class `BulkItemImport` and its module-level helpers).

Modelling boundary: the import pipeline is embedded at the record-store
interface.  The CSV lexer (`csv.DictReader`) and file access are not
modelled; an input file is given as the list of dictionary rows the reader
yields (association lists from raw header names to cell strings).  The
record store (frappe's database) is a structure of read capabilities, and
every write the importer issues is recorded in an ordered effect trace.
Frappe string settings use Python truthiness, under which `None` and the
empty string behave identically at every use site in this module; both are
therefore modelled as `""`.  Wall-clock posting date/time of a stock
reconciliation are omitted from the model.
-/

namespace BulkItemImport

/-- Single-quote character, used verbatim inside several thrown messages. -/
def sq : String := Char.toString (Char.ofNat 39)

/-- Python `str.strip()` (an external builtin): drop whitespace from both
ends.  Implemented over the character list so proofs can evaluate it. -/
def pyStrip (s : String) : String :=
  ⟨((s.data.dropWhile Char.isWhitespace).reverse.dropWhile Char.isWhitespace).reverse⟩

/-- Python `str.lower()` (an external builtin), for the ASCII headers this
importer sees. -/
def pyLower (s : String) : String :=
  ⟨s.data.map Char.toLower⟩

/-- Python `str.replace(a, b)` (an external builtin) for the single-character
patterns used by `_normalize_header`. -/
def pyReplaceChar (s : String) (a b : Char) : String :=
  ⟨s.data.map (fun c => if c = a then b else c)⟩

/-- Whether `pat` is a prefix of `s`, on character lists. -/
def isPrefixChars : List Char → List Char → Bool
  | [], _ => true
  | _ :: _, [] => false
  | a :: as, b :: bs => a == b && isPrefixChars as bs

/-- Whether `pat` occurs inside `s`, on character lists. -/
def isInfixChars (pat : List Char) : List Char → Bool
  | [] => isPrefixChars pat []
  | c :: rest => isPrefixChars pat (c :: rest) || isInfixChars pat rest

/-- Value of a digit list read in base 10. -/
def digitsVal (cs : List Char) : Nat :=
  cs.foldl (fun a c => a * 10 + (c.toNat - 48)) 0

/-- Exact decimal number `num * 10 ^ (-scale)`, kept with minimal scale.
These model the float values `frappe.utils.flt` produces from decimal
strings; the importer never computes with them — it only parses them and
compares against zero — so an exact decimal carrier is faithful. -/
structure Dec where
  num : Int
  scale : Nat
deriving DecidableEq, Repr

/-- Canonical form: strip factors of ten into the scale. -/
def canonDec : Int → Nat → Dec
  | n, 0 => ⟨n, 0⟩
  | n, k + 1 => if n % 10 = 0 then canonDec (n / 10) k else ⟨n, k + 1⟩

instance : OfNat Dec 0 := ⟨⟨0, 0⟩⟩

instance : LT Dec :=
  ⟨fun a b => a.num * (10 : Int) ^ b.scale < b.num * (10 : Int) ^ a.scale⟩

instance (a b : Dec) : Decidable (a < b) :=
  inferInstanceAs (Decidable (a.num * (10 : Int) ^ b.scale < b.num * (10 : Int) ^ a.scale))

/-- Modelled from the spec: `frappe.utils.flt` (external collaborator, §6/§9):
a lenient float parse — plain decimal strings (optional sign, optional
fractional part) parse to their value, anything else coerces to 0.
Exponent and underscore forms are not modelled. -/
def flt (s : String) : Dec :=
  let cs := (pyStrip s).data
  let signed : Bool × List Char :=
    match cs with
    | '-' :: rest => (true, rest)
    | '+' :: rest => (false, rest)
    | _ => (false, cs)
  let ip := signed.2.takeWhile (fun c => c ≠ '.')
  let rest := signed.2.dropWhile (fun c => c ≠ '.')
  let fpOk : Bool × List Char :=
    match rest with
    | [] => (true, [])
    | '.' :: fp => (fp.all Char.isDigit, fp)
    | _ => (false, [])
  if ip.all Char.isDigit ∧ fpOk.1 ∧ (ip ≠ [] ∨ fpOk.2 ≠ []) then
    let mant : Int := Int.ofNat (digitsVal (ip ++ fpOk.2))
    canonDec (if signed.1 then -mant else mant) fpOk.2.length
  else 0

/-- Modelled from the spec: `frappe.utils.cint` (external collaborator, §4.2
"parse as an integer truth value"): lenient integer coercion, truncating the
lenient float parse toward zero, 0 on failure. -/
def cint (s : String) : Int :=
  let q := flt s
  Int.tdiv q.num ((10 : Int) ^ q.scale)

/-- `_parse_bool` (lines 323-328): empty means unset (`None`), otherwise the
value is coerced through `cint` of the stripped string. -/
def parse_bool (v : String) : Option Int :=
  if v = "" then none else some (cint (pyStrip v))

/-- `_normalize_header` (lines 284-285). -/
def normalize_header (h : String) : String :=
  pyReplaceChar (pyReplaceChar (pyLower (pyStrip h)) ' ' '_') '-' '_'

/-- One dictionary row as yielded by `csv.DictReader`: raw header name to
cell string, in column order. -/
abbrev RawRow := List (String × String)

/-- Python dict lookup on an association list built by a dict comprehension:
for duplicate keys the last binding wins. -/
def rowGet (n : RawRow) (k : String) : Option String :=
  ((n.filter (fun p => p.1 == k)).getLast?).map (fun p => p.2)

/-- Line 106: `{_normalize_header(k): (v or "").strip() for k, v in row.items()}`. -/
def normalize_row (row : RawRow) : RawRow :=
  row.map (fun p => (normalize_header p.1, pyStrip p.2))

/-- `_get_value` (lines 288-293): first key whose value is neither absent nor
empty wins; otherwise the empty string. -/
def get_value (n : RawRow) (keys : List String) : String :=
  match keys with
  | [] => ""
  | k :: ks =>
    match rowGet n k with
    | some v => if v = "" then get_value n ks else v
    | none => get_value n ks

/-- Python string truthiness fallback `a or b` as used throughout the module. -/
def orStr (a b : String) : String := if a = "" then b else a

/-- The Item document fields this importer reads and writes.  `taxes` models
the child table of `item_tax_template` entries. -/
structure Item where
  item_code : String := ""
  item_name : String := ""
  item_group : String := ""
  stock_uom : String := ""
  description : String := ""
  gst_hsn_code : String := ""
  barcode : String := ""
  brand : String := ""
  manufacturer : String := ""
  disabled : Option Int := none
  is_stock_item : Option Int := none
  taxes : List String := []
deriving DecidableEq, Repr

/-- One `item.set(field, value)` from the loop at lines 314-316, for a string
field: applied only when the value is non-empty. -/
def setStrField (cur v : String) : String := if v = "" then cur else v

/-- One `item.set(field, value)` for a tri-state integer field: `None`
(empty input) is skipped, any parsed integer (including 0) is applied. -/
def setIntField (cur v : Option Int) : Option Int :=
  match v with
  | none => cur
  | some b => some b

/-- `_apply_item_fields` (lines 296-320). -/
def apply_item_fields (item : Item) (normalized : RawRow)
    (item_name item_group stock_uom : String) : Item :=
  let description := get_value normalized ["description"]
  let gst_hsn_code := get_value normalized ["gst_hsn_code", "hsn", "hsn_code"]
  let barcode := get_value normalized ["barcode"]
  let brand := get_value normalized ["brand"]
  let manufacturer := get_value normalized ["manufacturer"]
  let disabled := parse_bool (get_value normalized ["disabled"])
  let is_stock := parse_bool (get_value normalized ["is_stock_item", "is_stock"])
  let item_tax := get_value normalized ["item_tax", "item_tax_template"]
  let item1 : Item :=
    { item with
      item_name := setStrField item.item_name item_name
      item_group := setStrField item.item_group item_group
      stock_uom := setStrField item.stock_uom stock_uom
      description := setStrField item.description description
      gst_hsn_code := setStrField item.gst_hsn_code gst_hsn_code
      barcode := setStrField item.barcode barcode
      brand := setStrField item.brand brand
      manufacturer := setStrField item.manufacturer manufacturer
      disabled := setIntField item.disabled disabled
      is_stock_item := setIntField item.is_stock_item is_stock }
  if item_tax = "" then item1 else { item1 with taxes := [item_tax] }

/-- Fields fetched for the difference account (lines 77-82). -/
structure AccountDetails where
  account_type : String
  root_type : String
  is_group : Bool
  company : String
deriving DecidableEq, Repr

/-- The importing document's settings fields, immutable during one run.
Unset string fields are the empty string (Python falsy). -/
structure Settings where
  delimiter : String := ""
  default_company : String := ""
  default_currency : String := ""
  default_price_list : String := ""
  default_warehouse : String := ""
  difference_account : String := ""
  dry_run : Bool := false
  update_existing : Bool := false
  skip_item_price : Bool := false
  skip_stock_reconciliation : Bool := false
deriving DecidableEq, Repr

/-- One stock contribution payload (lines 187-190). -/
structure StockPayload where
  qty : Dec
  valuation_rate : Dec
deriving DecidableEq, Repr

/-- One child row of a Stock Reconciliation (lines 213-222). -/
structure StockRecoItem where
  item_code : String
  warehouse : String
  qty : Dec
  valuation_rate : Dec
deriving DecidableEq, Repr

/-- A Stock Reconciliation document as built at lines 205-222 (posting
date/time omitted: wall clock). -/
structure StockReco where
  purpose : String
  company : String
  difference_account : String
  items : List StockRecoItem
deriving DecidableEq, Repr

/-- One write issued against the record store, in program order. -/
inductive Effect where
  | insertItem (doc : Item)
  | saveItem (doc : Item)
  | insertPrice (item_code price_list currency : String) (rate : Dec)
  | savePrice (price_name : String) (rate : Dec)
  | insertStockReco (reco : StockReco)
  | submitStockReco (reco : StockReco)
deriving DecidableEq, Repr

/-- Read capabilities of the external record store, plus the outcome the
store gives to a stock-reconciliation insert+submit attempt (`none` means
success; `some msg` means `frappe.ValidationError` with that message). -/
structure Store where
  global_default_company : String := ""
  global_default_currency : String := ""
  account : String → Option AccountDetails
  item_exists : String → Bool
  get_item : String → Item
  item_price_name : String → String → String → Option String
  submit_result : StockReco → Option String

/-- Each `frappe.throw` / re-raise site of `import_csv`, carrying the thrown
message. -/
inductive ImportError where
  | diffAccountRequired (msg : String)
  | accountMissing (msg : String)
  | groupAccount (msg : String)
  | wrongRootType (msg : String)
  | companyMismatch (msg : String)
  | rowErrors (msg : String)
  | invalidDiffAccount (msg : String)
  | storeValidation (msg : String)
deriving DecidableEq, Repr

/-- Message of lines 70-73. -/
def msgDiffAccountRequired : String :=
  "Difference Account is required for Stock Reconciliation. Please set a valid Asset/Liability account."

/-- Message of line 84. -/
def msgAccountMissing (da : String) : String :=
  "Account " ++ da ++ " does not exist."

/-- Message of lines 90-93. -/
def msgGroupAccount (da : String) : String :=
  "Account " ++ sq ++ da ++ sq ++ " is a Group account. Please select a Ledger account (not a group)."

/-- Message of lines 95-98. -/
def msgWrongRootType (da rt : String) : String :=
  "Account " ++ sq ++ da ++ sq ++ " is of type " ++ sq ++ rt ++ sq ++ ". Please select an Asset or Liability account."

/-- Message of lines 100-103. -/
def msgCompanyMismatch (da ac dc : String) : String :=
  "Account " ++ sq ++ da ++ sq ++ " belongs to company " ++ sq ++ ac ++ sq ++
    ". Please select an account from company " ++ sq ++ dc ++ sq ++ "."

/-- Message of lines 231-235. -/
def msgInvalidDiffAccount (da err : String) : String :=
  "Invalid Difference Account: " ++ da ++ ". It must be an Asset or Liability type account. Error: " ++ err

/-- Row error of line 119. -/
def msgMissingItemCode (idx : Nat) : String :=
  "Row " ++ toString idx ++ ": Missing Item Code"

/-- Row error of line 125. -/
def msgItemNameRequired (idx : Nat) (code : String) : String :=
  "Row " ++ toString idx ++ ": Item Name required for new Item " ++ code

/-- Row error of line 129. -/
def msgItemGroupRequired (idx : Nat) (code : String) : String :=
  "Row " ++ toString idx ++ ": Item Group required for new Item " ++ code

/-- Row error of line 133. -/
def msgStockUomRequired (idx : Nat) (code : String) : String :=
  "Row " ++ toString idx ++ ": Stock UOM required for new Item " ++ code

/-- Duplicate-stock note of lines 193-195. -/
def msgDuplicateStock (idx : Nat) (code wh : String) : String :=
  "Row " ++ toString idx ++ ": Duplicate stock row for " ++ code ++ " in " ++ wh ++
    "; using first occurrence."

/-- Context resolved before the row scan (lines 60-103). -/
structure Resolved where
  company : String
  currency : String
  difference_account : String
deriving DecidableEq, Repr

/-- Configuration resolution, lines 60-103: defaults fallback, the
difference-account requirement, and the account validation chain, in source
order. -/
def resolveConfig (s : Settings) (store : Store) : Except ImportError Resolved :=
  let default_company := orStr s.default_company store.global_default_company
  let default_currency := orStr s.default_currency store.global_default_currency
  let da := s.difference_account
  if da = "" ∧ ¬s.skip_stock_reconciliation then
    .error (.diffAccountRequired msgDiffAccountRequired)
  else if da = "" then
    .ok { company := default_company, currency := default_currency, difference_account := da }
  else
    match store.account da with
    | none => .error (.accountMissing (msgAccountMissing da))
    | some det =>
      let company := if default_company = "" then det.company else default_company
      if det.is_group then
        .error (.groupAccount (msgGroupAccount da))
      else if ¬(det.root_type = "Asset" ∨ det.root_type = "Liability") then
        .error (.wrongRootType (msgWrongRootType da det.root_type))
      else if company ≠ "" ∧ det.company ≠ company then
        .error (.companyMismatch (msgCompanyMismatch da det.company company))
      else
        .ok { company := company, currency := default_currency, difference_account := da }

/-- Delimiter resolution, line 45: `(self.delimiter or ",").strip() or ","`. -/
def resolveDelimiter (delim : String) : String :=
  let d1 := orStr delim ","
  let d2 := pyStrip d1
  if d2 = "" then "," else d2

/-- The per-row validation chain of lines 118-134: the first failing
condition yields the row's single error. -/
def rowError (idx : Nat) (item_code : String) (item_ex : Bool)
    (item_name item_group stock_uom : String) : Option String :=
  if item_code = "" then some (msgMissingItemCode idx)
  else if ¬item_ex ∧ item_name = "" then some (msgItemNameRequired idx item_code)
  else if ¬item_ex ∧ item_group = "" then some (msgItemGroupRequired idx item_code)
  else if ¬item_ex ∧ stock_uom = "" then some (msgStockUomRequired idx item_code)
  else none

/-- The running accumulation of the scan loop (lines 48-58), together with
the overlay the in-transaction writes leave on subsequent store reads. -/
structure ScanState where
  created_items : Nat := 0
  updated_items : Nat := 0
  created_prices : Nat := 0
  updated_prices : Nat := 0
  errors : List String := []
  log_lines : List String := []
  stock_map : List (String × List (String × StockPayload)) := []
  stock_seen : List (String × String) := []
  inserted_codes : List String := []
  docs : List (String × Item) := []
  price_inserted : List ((String × String × String) × String) := []
  effects : List Effect := []
deriving DecidableEq, Repr

/-- `frappe.db.exists("Item", code)` (line 122), seeing inserts made earlier
in the same run's transaction. -/
def itemExistsNow (store : Store) (st : ScanState) (code : String) : Bool :=
  store.item_exists code || st.inserted_codes.contains code

/-- `frappe.get_doc("Item", code)` (line 138), seeing this run's writes. -/
def getDocNow (store : Store) (st : ScanState) (code : String) : Item :=
  match st.docs.find? (fun p => p.1 == code) with
  | some p => p.2
  | none => store.get_item code

/-- `frappe.db.get_value("Item Price", filters, "name")` (line 338), seeing
prices inserted earlier in the same run. -/
def priceNameNow (store : Store) (st : ScanState) (code pl cur : String) : Option String :=
  match st.price_inserted.find? (fun p => p.1 == (code, pl, cur)) with
  | some p => some p.2
  | none => store.item_price_name code pl cur

/-- `_upsert_item_price` (lines 331-355) together with the count updates of
lines 164-172; the inserted name models frappe's autoname. -/
def upsert_item_price (store : Store) (st : ScanState)
    (item_code price_list currency : String) (rate : Dec) (update_existing : Bool) :
    ScanState :=
  match priceNameNow store st item_code price_list currency with
  | some priceName =>
    if update_existing then
      { st with updated_prices := st.updated_prices + 1
                effects := st.effects ++ [.savePrice priceName rate] }
    else st
  | none =>
    { st with created_prices := st.created_prices + 1
              effects := st.effects ++ [.insertPrice item_code price_list currency rate]
              price_inserted := st.price_inserted ++
                [((item_code, price_list, currency),
                  "Item Price/" ++ item_code ++ "/" ++ price_list ++ "/" ++ currency)] }

/-- Inner dict assignment `d[code] = pay` (insert or overwrite, preserving
insertion order). -/
def assocSet (l : List (String × StockPayload)) (code : String) (pay : StockPayload) :
    List (String × StockPayload) :=
  match l with
  | [] => [(code, pay)]
  | q :: rest => if q.1 = code then (code, pay) :: rest else q :: assocSet rest code pay

/-- `stock_map[warehouse][item_code] = payload` on the `defaultdict(dict)`
of line 57, preserving insertion order. -/
def stockMapSet (m : List (String × List (String × StockPayload))) (wh code : String)
    (pay : StockPayload) : List (String × List (String × StockPayload)) :=
  match m with
  | [] => [(wh, [(code, pay)])]
  | p :: rest =>
    if p.1 = wh then (p.1, assocSet p.2 code pay) :: rest
    else p :: stockMapSet rest wh code pay

/-- Lookup of one stock contribution in the nested map. -/
def stockMapGet (m : List (String × List (String × StockPayload))) (wh code : String) :
    Option StockPayload :=
  match m.find? (fun p => p.1 == wh) with
  | some p => (p.2.find? (fun q => q.1 == code)).map (fun q => q.2)
  | none => none

/-- Extraction of `item_code` (lines 108-113). -/
def rowItemCode (row : RawRow) : String :=
  get_value (normalize_row row) ["item_code", "itemcode", "sku"]

/-- Extraction of `item_name` (line 114). -/
def rowItemName (row : RawRow) : String :=
  get_value (normalize_row row) ["item_name", "itemname", "item"]

/-- Extraction of `item_group` (line 115). -/
def rowItemGroup (row : RawRow) : String :=
  get_value (normalize_row row) ["item_group", "itemgroup", "group"]

/-- Extraction of `stock_uom` (line 116). -/
def rowStockUom (row : RawRow) : String :=
  get_value (normalize_row row) ["stock_uom", "uom", "stockuom"]

/-- Extraction of `price_list` with settings fallback (line 152). -/
def rowPriceList (s : Settings) (row : RawRow) : String :=
  orStr (get_value (normalize_row row) ["price_list"]) s.default_price_list

/-- Extraction of `price_list_rate` (lines 153-158). -/
def rowPriceListRate (row : RawRow) : String :=
  get_value (normalize_row row) ["price_list_rate", "standard_selling_rate", "standard_rate"]

/-- Extraction of `currency` with resolved-default fallback (line 159). -/
def rowCurrency (res : Resolved) (row : RawRow) : String :=
  orStr (get_value (normalize_row row) ["currency"]) res.currency

/-- Extraction of `warehouse` with settings fallback (line 176). -/
def rowWarehouse (s : Settings) (row : RawRow) : String :=
  orStr (get_value (normalize_row row) ["warehouse"]) s.default_warehouse

/-- Extraction of `opening_qty` (line 177). -/
def rowOpeningQty (row : RawRow) : String :=
  get_value (normalize_row row) ["opening_qty", "opening_stock", "qty"]

/-- Extraction of `valuation_rate` (lines 178-180). -/
def rowValuationRate (row : RawRow) : String :=
  get_value (normalize_row row) ["valuation_rate", "valuation", "rate"]

/-- The validation outcome of one row against the current state. -/
def rowErrorOf (store : Store) (st : ScanState) (idx : Nat) (row : RawRow) : Option String :=
  rowError idx (rowItemCode row) (itemExistsNow store st (rowItemCode row))
    (rowItemName row) (rowItemGroup row) (rowStockUom row)

/-- The item create/update block of a validated row (lines 136-148). -/
def rowItemPhase (s : Settings) (store : Store) (st : ScanState) (row : RawRow) : ScanState :=
  if ¬s.dry_run then
    if itemExistsNow store st (rowItemCode row) then
      if s.update_existing then
        let doc := apply_item_fields (getDocNow store st (rowItemCode row)) (normalize_row row)
          (rowItemName row) (rowItemGroup row) (rowStockUom row)
        { st with updated_items := st.updated_items + 1
                  docs := (rowItemCode row, doc) :: st.docs
                  effects := st.effects ++ [.saveItem doc] }
      else st
    else
      let doc := apply_item_fields { item_code := rowItemCode row } (normalize_row row)
        (rowItemName row) (rowItemGroup row) (rowStockUom row)
      { st with created_items := st.created_items + 1
                inserted_codes := st.inserted_codes ++ [rowItemCode row]
                docs := (rowItemCode row, doc) :: st.docs
                effects := st.effects ++ [.insertItem doc] }
  else st

/-- The item-price block of a validated row (lines 150-172). -/
def rowPricePhase (s : Settings) (store : Store) (res : Resolved)
    (st : ScanState) (row : RawRow) : ScanState :=
  if ¬s.skip_item_price then
    if rowPriceList s row ≠ "" ∧ rowPriceListRate row ≠ "" then
      if ¬s.dry_run then
        upsert_item_price store st (rowItemCode row) (rowPriceList s row) (rowCurrency res row)
          (flt (rowPriceListRate row)) s.update_existing
      else st
    else st
  else st

/-- The stock-contribution block of a validated row (lines 174-195). -/
def rowStockPhase (s : Settings) (st : ScanState) (idx : Nat) (row : RawRow) : ScanState :=
  if ¬s.skip_stock_reconciliation then
    if rowWarehouse s row ≠ "" ∧ rowOpeningQty row ≠ "" then
      if flt (rowOpeningQty row) > 0 then
        if (rowItemCode row, rowWarehouse s row) ∈ st.stock_seen then
          { st with log_lines :=
              st.log_lines ++ [msgDuplicateStock idx (rowItemCode row) (rowWarehouse s row)] }
        else
          { st with
            stock_map := stockMapSet st.stock_map (rowWarehouse s row) (rowItemCode row)
              { qty := flt (rowOpeningQty row)
                valuation_rate :=
                  if rowValuationRate row ≠ "" then flt (rowValuationRate row) else 0 }
            stock_seen := st.stock_seen ++ [(rowItemCode row, rowWarehouse s row)] }
      else st
    else st
  else st

/-- One iteration of the scan loop (lines 105-195) for the row at 1-based
line number `idx`: the first failing validation appends the row's single
error and skips the row; otherwise the item, price and stock blocks run in
source order against the running state. -/
def processRow (s : Settings) (store : Store) (res : Resolved)
    (st : ScanState) (idx : Nat) (row : RawRow) : ScanState :=
  match rowErrorOf store st idx row with
  | some e => { st with errors := st.errors ++ [e] }
  | none => rowStockPhase s (rowPricePhase s store res (rowItemPhase s store st row) row) idx row

/-- The full scan `for row_idx, row in enumerate(reader, start=2)`
(line 105): every row is visited; errors accumulate without aborting. -/
def scanRows (s : Settings) (store : Store) (res : Resolved)
    (st : ScanState) (idx : Nat) (rows : List RawRow) : ScanState :=
  match rows with
  | [] => st
  | row :: rest => scanRows s store res (processRow s store res st idx row) (idx + 1) rest

/-- The summary dict of lines 242-248 / 251-257. -/
structure Summary where
  created_items : Nat
  updated_items : Nat
  created_prices : Nat
  updated_prices : Nat
  stock_reconciliations : Nat
deriving DecidableEq, Repr

/-- The rendered summary block of lines 261-265. -/
def summaryLines (sm : Summary) : List String :=
  ["Summary",
   "- Created Items: " ++ toString sm.created_items,
   "- Updated Items: " ++ toString sm.updated_items,
   "- Created Prices: " ++ toString sm.created_prices,
   "- Updated Prices: " ++ toString sm.updated_prices,
   "- Stock Reconciliations: " ++ toString sm.stock_reconciliations,
   ""]

/-- The log message `_write_log` builds (lines 259-276). -/
def write_log_message (errors log_lines : List String) (summary : Option Summary) : String :=
  let out1 := match summary with | some sm => summaryLines sm | none => []
  let out2 := if log_lines ≠ [] then ["Notes"] ++ log_lines ++ [""] else []
  let out3 := if errors ≠ [] then ["Errors"] ++ errors else []
  pyStrip (String.intercalate "\n" (out1 ++ out2 ++ out3))

/-- Substring test (Python `pat in s`), for the message sniffing at line 230. -/
def containsSub (s pat : String) : Bool := isInfixChars pat.data s.data

/-- The Stock Reconciliation built for one warehouse group (lines 205-222). -/
def buildReco (company diff wh : String) (items : List (String × StockPayload)) : StockReco :=
  { purpose := "Opening Stock"
    company := company
    difference_account := diff
    items := items.map (fun q =>
      { item_code := q.1, warehouse := wh, qty := q.2.qty, valuation_rate := q.2.valuation_rate }) }

/-- The commit loop over warehouse groups (lines 202-237).  The insert
effect records the attempt; the submit effect is recorded on success.  A
`ValidationError` mentioning "Difference Account" or "Asset" is translated
(lines 230-235); any other validation error propagates unchanged. -/
def submitRecos (store : Store) (company diff : String)
    (groups : List (String × List (String × StockPayload))) (n : Nat) (effs : List Effect) :
    Nat × List Effect × Option ImportError :=
  match groups with
  | [] => (n, effs, none)
  | g :: rest =>
    if g.2 = [] then submitRecos store company diff rest n effs
    else
      match store.submit_result (buildReco company diff g.1 g.2) with
      | none =>
        submitRecos store company diff rest (n + 1)
          (effs ++ [.insertStockReco (buildReco company diff g.1 g.2),
                    .submitStockReco (buildReco company diff g.1 g.2)])
      | some err =>
        if containsSub err "Difference Account" || containsSub err "Asset" then
          (n, effs ++ [.insertStockReco (buildReco company diff g.1 g.2)],
            some (.invalidDiffAccount (msgInvalidDiffAccount diff err)))
        else
          (n, effs ++ [.insertStockReco (buildReco company diff g.1 g.2)],
            some (.storeValidation err))

/-- Everything one invocation of `import_csv` produces: its return value or
thrown error, the ordered store-write trace, the `db_set("import_log", _)`
writes, the `frappe.log_error` calls, and the accumulated row errors and
notes. -/
structure RunResult where
  result : Except ImportError Summary
  effects : List Effect
  log_writes : List String
  error_logs : List String
  row_errors : List String
  notes : List String
deriving Repr

/-- `BulkItemImport.import_csv` (lines 32-257), from configuration
resolution through the final log, on the parsed row stream. -/
def importCsv (s : Settings) (store : Store) (rows : List RawRow) : RunResult :=
  match resolveConfig s store with
  | .error e =>
    { result := .error e, effects := [], log_writes := [], error_logs := []
      row_errors := [], notes := [] }
  | .ok res =>
    let st := scanRows s store res {} 2 rows
    if st.errors ≠ [] then
      let msg := write_log_message st.errors st.log_lines none
      { result := .error (.rowErrors (String.intercalate "\n" st.errors))
        effects := st.effects
        log_writes := if msg ≠ "" then [msg] else []
        error_logs := [msg]
        row_errors := st.errors
        notes := st.log_lines }
    else
      let phase :=
        if ¬s.skip_stock_reconciliation ∧ ¬s.dry_run then
          submitRecos store res.company res.difference_account st.stock_map 0 []
        else (0, [], none)
      match phase.2.2 with
      | some e =>
        { result := .error e
          effects := st.effects ++ phase.2.1
          log_writes := []
          error_logs := []
          row_errors := st.errors
          notes := st.log_lines }
      | none =>
        let sm : Summary :=
          { created_items := st.created_items
            updated_items := st.updated_items
            created_prices := st.created_prices
            updated_prices := st.updated_prices
            stock_reconciliations := phase.1 }
        let msg := write_log_message st.errors st.log_lines (some sm)
        { result := .ok sm
          effects := st.effects ++ phase.2.1
          log_writes := if msg ≠ "" then [msg] else []
          error_logs := []
          row_errors := st.errors
          notes := st.log_lines }

/-- Whether an effect is a stock-reconciliation write (as opposed to an
item or price write). -/
def Effect.isStockWrite : Effect → Bool
  | .insertStockReco _ => true
  | .submitStockReco _ => true
  | _ => false

/-- A valid Asset ledger account, for concrete runs. -/
def assetAccount : AccountDetails :=
  { account_type := "", root_type := "Asset", is_group := false, company := "C1" }

/-- A concrete store: one account "DA", no items, no prices, submissions
succeed. -/
def cexStore : Store :=
  { account := fun a => if a = "DA" then some assetAccount else none
    item_exists := fun _ => false
    get_item := fun c => { item_code := c }
    item_price_name := fun _ _ _ => none
    submit_result := fun _ => none }

/-- `cexStore` with a store-wide default company set. -/
def cexStoreGlobalCo : Store := { cexStore with global_default_company := "GlobalCo" }

/-- `cexStore` where every stock-reconciliation submission fails with an
asset-type validation message. -/
def cexStoreSubmitFail : Store :=
  { cexStore with submit_result := fun _ => some "Asset account mismatch" }

/-- `cexStore` where every item already exists. -/
def cexStoreItemsExist : Store := { cexStore with item_exists := fun _ => true }

/-- A fully-specified new-item row with opening stock. -/
def rowFull : RawRow :=
  [("item_code", "ITM1"), ("item_name", "Widget"), ("item_group", "Parts"),
   ("stock_uom", "Nos"), ("warehouse", "WH1"), ("opening_qty", "10")]

/-- A row carrying only an item code. -/
def rowCodeOnly : RawRow := [("item_code", "ITM1")]

/-- A row with an empty item code. -/
def rowNoCode : RawRow := [("item_code", "")]

/-- A second stock row for the same (item, warehouse) key as `rowFull`. -/
def rowDupStock : RawRow := [("item_code", "ITM1"), ("warehouse", "WH1"), ("opening_qty", "5")]

/-- Settings with a difference account and prices skipped. -/
def settingsDA : Settings := { difference_account := "DA", skip_item_price := true }

/-- Settings with both the price and the stock stages skipped. -/
def settingsSkipAll : Settings := { skip_item_price := true, skip_stock_reconciliation := true }

/-- The item document the run on `rowFull` inserts. -/
def widgetDoc : Item :=
  { item_code := "ITM1", item_name := "Widget", item_group := "Parts", stock_uom := "Nos" }

section ScanLemmas

variable {s : Settings} {store : Store} {res : Resolved} {st : ScanState}
variable {idx : Nat} {row : RawRow}

@[simp] lemma upsert_item_price_errors (c pl cur : String) (r : Dec) (u : Bool) :
    (upsert_item_price store st c pl cur r u).errors = st.errors := by
  unfold upsert_item_price; split <;> first | rfl | (split <;> rfl)

@[simp] lemma upsert_item_price_log_lines (c pl cur : String) (r : Dec) (u : Bool) :
    (upsert_item_price store st c pl cur r u).log_lines = st.log_lines := by
  unfold upsert_item_price; split <;> first | rfl | (split <;> rfl)

@[simp] lemma upsert_item_price_stock_map (c pl cur : String) (r : Dec) (u : Bool) :
    (upsert_item_price store st c pl cur r u).stock_map = st.stock_map := by
  unfold upsert_item_price; split <;> first | rfl | (split <;> rfl)

@[simp] lemma upsert_item_price_stock_seen (c pl cur : String) (r : Dec) (u : Bool) :
    (upsert_item_price store st c pl cur r u).stock_seen = st.stock_seen := by
  unfold upsert_item_price; split <;> first | rfl | (split <;> rfl)

@[simp] lemma upsert_item_price_inserted_codes (c pl cur : String) (r : Dec) (u : Bool) :
    (upsert_item_price store st c pl cur r u).inserted_codes = st.inserted_codes := by
  unfold upsert_item_price; split <;> first | rfl | (split <;> rfl)

@[simp] lemma upsert_item_price_created_items (c pl cur : String) (r : Dec) (u : Bool) :
    (upsert_item_price store st c pl cur r u).created_items = st.created_items := by
  unfold upsert_item_price; split <;> first | rfl | (split <;> rfl)

@[simp] lemma upsert_item_price_updated_items (c pl cur : String) (r : Dec) (u : Bool) :
    (upsert_item_price store st c pl cur r u).updated_items = st.updated_items := by
  unfold upsert_item_price; split <;> first | rfl | (split <;> rfl)

@[simp] lemma upsert_item_price_docs (c pl cur : String) (r : Dec) (u : Bool) :
    (upsert_item_price store st c pl cur r u).docs = st.docs := by
  unfold upsert_item_price; split <;> first | rfl | (split <;> rfl)

@[simp] lemma rowItemPhase_errors : (rowItemPhase s store st row).errors = st.errors := by
  unfold rowItemPhase; split_ifs <;> rfl

@[simp] lemma rowItemPhase_log_lines : (rowItemPhase s store st row).log_lines = st.log_lines := by
  unfold rowItemPhase; split_ifs <;> rfl

@[simp] lemma rowItemPhase_stock_map : (rowItemPhase s store st row).stock_map = st.stock_map := by
  unfold rowItemPhase; split_ifs <;> rfl

@[simp] lemma rowItemPhase_stock_seen :
    (rowItemPhase s store st row).stock_seen = st.stock_seen := by
  unfold rowItemPhase; split_ifs <;> rfl

@[simp] lemma rowItemPhase_created_prices :
    (rowItemPhase s store st row).created_prices = st.created_prices := by
  unfold rowItemPhase; split_ifs <;> rfl

@[simp] lemma rowItemPhase_updated_prices :
    (rowItemPhase s store st row).updated_prices = st.updated_prices := by
  unfold rowItemPhase; split_ifs <;> rfl

@[simp] lemma rowItemPhase_price_inserted :
    (rowItemPhase s store st row).price_inserted = st.price_inserted := by
  unfold rowItemPhase; split_ifs <;> rfl

@[simp] lemma rowPricePhase_errors :
    (rowPricePhase s store res st row).errors = st.errors := by
  unfold rowPricePhase; split_ifs <;> simp

@[simp] lemma rowPricePhase_log_lines :
    (rowPricePhase s store res st row).log_lines = st.log_lines := by
  unfold rowPricePhase; split_ifs <;> simp

@[simp] lemma rowPricePhase_stock_map :
    (rowPricePhase s store res st row).stock_map = st.stock_map := by
  unfold rowPricePhase; split_ifs <;> simp

@[simp] lemma rowPricePhase_stock_seen :
    (rowPricePhase s store res st row).stock_seen = st.stock_seen := by
  unfold rowPricePhase; split_ifs <;> simp

@[simp] lemma rowPricePhase_inserted_codes :
    (rowPricePhase s store res st row).inserted_codes = st.inserted_codes := by
  unfold rowPricePhase; split_ifs <;> simp

@[simp] lemma rowPricePhase_created_items :
    (rowPricePhase s store res st row).created_items = st.created_items := by
  unfold rowPricePhase; split_ifs <;> simp

@[simp] lemma rowPricePhase_updated_items :
    (rowPricePhase s store res st row).updated_items = st.updated_items := by
  unfold rowPricePhase; split_ifs <;> simp

@[simp] lemma rowPricePhase_docs :
    (rowPricePhase s store res st row).docs = st.docs := by
  unfold rowPricePhase; split_ifs <;> simp

@[simp] lemma rowStockPhase_errors : (rowStockPhase s st idx row).errors = st.errors := by
  unfold rowStockPhase; split_ifs <;> rfl

@[simp] lemma rowStockPhase_effects : (rowStockPhase s st idx row).effects = st.effects := by
  unfold rowStockPhase; split_ifs <;> rfl

@[simp] lemma rowStockPhase_inserted_codes :
    (rowStockPhase s st idx row).inserted_codes = st.inserted_codes := by
  unfold rowStockPhase; split_ifs <;> rfl

@[simp] lemma rowStockPhase_docs : (rowStockPhase s st idx row).docs = st.docs := by
  unfold rowStockPhase; split_ifs <;> rfl

@[simp] lemma rowStockPhase_price_inserted :
    (rowStockPhase s st idx row).price_inserted = st.price_inserted := by
  unfold rowStockPhase; split_ifs <;> rfl

@[simp] lemma rowStockPhase_created_items :
    (rowStockPhase s st idx row).created_items = st.created_items := by
  unfold rowStockPhase; split_ifs <;> rfl

@[simp] lemma rowStockPhase_updated_items :
    (rowStockPhase s st idx row).updated_items = st.updated_items := by
  unfold rowStockPhase; split_ifs <;> rfl

@[simp] lemma rowStockPhase_created_prices :
    (rowStockPhase s st idx row).created_prices = st.created_prices := by
  unfold rowStockPhase; split_ifs <;> rfl

@[simp] lemma rowStockPhase_updated_prices :
    (rowStockPhase s st idx row).updated_prices = st.updated_prices := by
  unfold rowStockPhase; split_ifs <;> rfl

lemma rowItemPhase_dry (h : s.dry_run = true) : rowItemPhase s store st row = st := by
  unfold rowItemPhase; simp [h]

lemma rowPricePhase_dry (h : s.dry_run = true) : rowPricePhase s store res st row = st := by
  unfold rowPricePhase; simp [h]

lemma processRow_error_eq {e : String} (h : rowErrorOf store st idx row = some e) :
    processRow s store res st idx row = { st with errors := st.errors ++ [e] } := by
  unfold processRow; rw [h]

lemma processRow_ok_eq (h : rowErrorOf store st idx row = none) :
    processRow s store res st idx row =
      rowStockPhase s (rowPricePhase s store res (rowItemPhase s store st row) row) idx row := by
  unfold processRow; rw [h]

lemma processRow_errors :
    (processRow s store res st idx row).errors =
      st.errors ++ (rowErrorOf store st idx row).toList := by
  unfold processRow; cases h : rowErrorOf store st idx row <;> simp

lemma scanRows_nil : scanRows s store res st idx [] = st := rfl

lemma scanRows_cons {rest : List RawRow} :
    scanRows s store res st idx (row :: rest) =
      scanRows s store res (processRow s store res st idx row) (idx + 1) rest := rfl

lemma scanRows_append (xs ys : List RawRow) :
    ∀ (st : ScanState) (idx : Nat),
      scanRows s store res st idx (xs ++ ys) =
        scanRows s store res (scanRows s store res st idx xs) (idx + xs.length) ys := by
  induction xs with
  | nil => intro st idx; simp [scanRows]
  | cons x xs ih =>
    intro st idx
    have h : idx + 1 + xs.length = idx + (xs.length + 1) := by omega
    simp only [List.cons_append, scanRows, List.length_cons, List.append_eq]
    rw [ih, h]

lemma upsert_item_price_effects_append (c pl cur : String) (r : Dec) (u : Bool) :
    ∃ l, (upsert_item_price store st c pl cur r u).effects = st.effects ++ l ∧
      ∀ e ∈ l, e.isStockWrite = false := by
  unfold upsert_item_price
  split
  · split
    · exact ⟨_, rfl, by intro e he; simp only [List.mem_singleton] at he; subst he; rfl⟩
    · exact ⟨[], by simp, by intro e he; simp at he⟩
  · exact ⟨_, rfl, by intro e he; simp only [List.mem_singleton] at he; subst he; rfl⟩

lemma rowItemPhase_effects_append :
    ∃ l, (rowItemPhase s store st row).effects = st.effects ++ l ∧
      ∀ e ∈ l, e.isStockWrite = false := by
  unfold rowItemPhase
  split_ifs <;>
    first
      | exact ⟨[], (List.append_nil _).symm, fun e he => absurd he (List.not_mem_nil e)⟩
      | exact ⟨_, rfl, by intro e he; simp only [List.mem_singleton] at he; subst he; rfl⟩

lemma rowPricePhase_effects_append :
    ∃ l, (rowPricePhase s store res st row).effects = st.effects ++ l ∧
      ∀ e ∈ l, e.isStockWrite = false := by
  unfold rowPricePhase
  split_ifs <;>
    first
      | exact ⟨[], (List.append_nil _).symm, fun e he => absurd he (List.not_mem_nil e)⟩
      | exact upsert_item_price_effects_append _ _ _ _ _

lemma processRow_effects_append :
    ∃ l, (processRow s store res st idx row).effects = st.effects ++ l ∧
      ∀ e ∈ l, e.isStockWrite = false := by
  unfold processRow
  cases hre : rowErrorOf store st idx row with
  | some e => exact ⟨[], by simp, by intro e he; simp at he⟩
  | none =>
    obtain ⟨l1, h1, hl1⟩ := @rowItemPhase_effects_append s store st row
    obtain ⟨l2, h2, hl2⟩ :=
      @rowPricePhase_effects_append s store res (rowItemPhase s store st row) row
    refine ⟨l1 ++ l2, ?_, ?_⟩
    · rw [rowStockPhase_effects, h2, h1, List.append_assoc]
    · intro e he
      rcases List.mem_append.1 he with h | h
      · exact hl1 e h
      · exact hl2 e h

lemma scanRows_effects_append (rows : List RawRow) :
    ∀ (st : ScanState) (idx : Nat),
      ∃ l, (scanRows s store res st idx rows).effects = st.effects ++ l ∧
        ∀ e ∈ l, e.isStockWrite = false := by
  induction rows with
  | nil => intro st idx; exact ⟨[], by simp [scanRows], by intro e he; simp at he⟩
  | cons row rest ih =>
    intro st idx
    obtain ⟨l1, h1, hl1⟩ := @processRow_effects_append s store res st idx row
    obtain ⟨l2, h2, hl2⟩ := ih (processRow s store res st idx row) (idx + 1)
    refine ⟨l1 ++ l2, ?_, ?_⟩
    · rw [scanRows_cons, h2, h1, List.append_assoc]
    · intro e he
      rcases List.mem_append.1 he with h | h
      · exact hl1 e h
      · exact hl2 e h

lemma processRow_dry (h : s.dry_run = true) :
    (processRow s store res st idx row).effects = st.effects ∧
      (processRow s store res st idx row).inserted_codes = st.inserted_codes := by
  unfold processRow
  cases hre : rowErrorOf store st idx row with
  | some e => exact ⟨rfl, rfl⟩
  | none => rw [rowItemPhase_dry h, rowPricePhase_dry h]; simp

lemma scanRows_dry (h : s.dry_run = true) (rows : List RawRow) :
    ∀ (st : ScanState) (idx : Nat),
      (scanRows s store res st idx rows).effects = st.effects ∧
        (scanRows s store res st idx rows).inserted_codes = st.inserted_codes := by
  induction rows with
  | nil => intro st idx; exact ⟨rfl, rfl⟩
  | cons row rest ih =>
    intro st idx
    obtain ⟨h1, h2⟩ := @processRow_dry s store res st idx row h
    obtain ⟨h3, h4⟩ := ih (processRow s store res st idx row) (idx + 1)
    exact ⟨by rw [scanRows_cons, h3, h1], by rw [scanRows_cons, h4, h2]⟩

lemma rowError_some_mono {idx : Nat} {code name group uom : String} {exw exd : Bool} {e : String}
    (hex : exd = true → exw = true)
    (hw : rowError idx code exw name group uom = some e) :
    rowError idx code exd name group uom = some e := by
  cases hexw : exw with
  | true =>
    subst hexw
    by_cases hc : code = ""
    · simp [rowError, hc] at hw ⊢
      exact hw
    · simp [rowError, hc] at hw
  | false =>
    have hexd : exd = false := by
      cases hd : exd
      · rfl
      · exact absurd (hex hd) (by simp [hexw])
    subst hexw; rw [hexd] at *; exact hw

lemma resolveConfig_dry_irrel (b : Bool) :
    resolveConfig { s with dry_run := b } store = resolveConfig s store := rfl

lemma importCsv_config_error {rows : List RawRow} {e : ImportError}
    (h : resolveConfig s store = .error e) :
    importCsv s store rows =
      { result := .error e, effects := [], log_writes := [], error_logs := []
        row_errors := [], notes := [] } := by
  unfold importCsv; rw [h]

lemma importCsv_row_errors_eq {rows : List RawRow}
    (h : resolveConfig s store = .ok res) :
    (importCsv s store rows).row_errors = (scanRows s store res {} 2 rows).errors := by
  unfold importCsv
  rw [h]
  dsimp only
  split
  · rfl
  · split <;> rfl

lemma importCsv_errors_branch {rows : List RawRow}
    (h : resolveConfig s store = .ok res)
    (hne : (scanRows s store res {} 2 rows).errors ≠ []) :
    importCsv s store rows =
      { result := .error (.rowErrors
          (String.intercalate "\n" (scanRows s store res {} 2 rows).errors))
        effects := (scanRows s store res {} 2 rows).effects
        log_writes :=
          if write_log_message (scanRows s store res {} 2 rows).errors
              (scanRows s store res {} 2 rows).log_lines none ≠ "" then
            [write_log_message (scanRows s store res {} 2 rows).errors
              (scanRows s store res {} 2 rows).log_lines none]
          else []
        error_logs := [write_log_message (scanRows s store res {} 2 rows).errors
          (scanRows s store res {} 2 rows).log_lines none]
        row_errors := (scanRows s store res {} 2 rows).errors
        notes := (scanRows s store res {} 2 rows).log_lines } := by
  unfold importCsv
  rw [h]
  dsimp only
  rw [if_pos hne]

lemma importCsv_no_row_errors {rows : List RawRow}
    (h : resolveConfig s store = .ok res)
    (hz : (scanRows s store res {} 2 rows).errors = []) :
    importCsv s store rows =
      (let st := scanRows s store res {} 2 rows
       let phase :=
         if ¬s.skip_stock_reconciliation ∧ ¬s.dry_run then
           submitRecos store res.company res.difference_account st.stock_map 0 []
         else (0, [], none)
       match phase.2.2 with
       | some e =>
         { result := .error e
           effects := st.effects ++ phase.2.1
           log_writes := []
           error_logs := []
           row_errors := st.errors
           notes := st.log_lines }
       | none =>
         let sm : Summary :=
           { created_items := st.created_items
             updated_items := st.updated_items
             created_prices := st.created_prices
             updated_prices := st.updated_prices
             stock_reconciliations := phase.1 }
         let msg := write_log_message st.errors st.log_lines (some sm)
         { result := .ok sm
           effects := st.effects ++ phase.2.1
           log_writes := if msg ≠ "" then [msg] else []
           error_logs := []
           row_errors := st.errors
           notes := st.log_lines }) := by
  unfold importCsv
  rw [h]
  dsimp only
  rw [if_neg (by simp [hz])]

lemma submitRecos_error_shape {c d : String} {e : ImportError} (groups : List (String × List (String × StockPayload))) :
    ∀ (n : Nat) (effs : List Effect),
      (submitRecos store c d groups n effs).2.2 = some e →
      (∃ m, e = .invalidDiffAccount m) ∨ ∃ m, e = .storeValidation m := by
  induction groups with
  | nil => intro n effs h; simp [submitRecos] at h
  | cons g rest ih =>
    intro n effs h
    rw [submitRecos] at h
    split at h
    · exact ih _ _ h
    · split at h
      · exact ih _ _ h
      · split at h
        · simp only [Option.some.injEq] at h
          exact Or.inl ⟨_, h.symm⟩
        · simp only [Option.some.injEq] at h
          exact Or.inr ⟨_, h.symm⟩

lemma submitRecos_effects_stock {c d : String} (groups : List (String × List (String × StockPayload))) :
    ∀ (n : Nat) (effs : List Effect),
      (∀ e ∈ effs, e.isStockWrite = true) →
      ∀ e ∈ (submitRecos store c d groups n effs).2.1, e.isStockWrite = true := by
  induction groups with
  | nil => intro n effs hall; simpa [submitRecos] using hall
  | cons g rest ih =>
    intro n effs hall
    rw [submitRecos]
    split
    · exact ih _ _ hall
    · split
      · refine ih _ _ ?_
        intro e he
        rcases List.mem_append.1 he with h | h
        · exact hall e h
        · rcases List.mem_cons.1 h with h1 | h1
          · subst h1; rfl
          · simp only [List.mem_singleton] at h1; subst h1; rfl
      · split <;>
          · intro e he
            rcases List.mem_append.1 he with h | h
            · exact hall e h
            · simp only [List.mem_singleton] at h; subst h; rfl

lemma scan_errors_sublist (sw sd : Settings) (resw resd : Resolved)
    (hd : sd.dry_run = true) (rows : List RawRow) :
    ∀ (stw std : ScanState) (idx : Nat),
      std.inserted_codes = [] →
      stw.errors.Sublist std.errors →
      (scanRows sw store resw stw idx rows).errors.Sublist
        (scanRows sd store resd std idx rows).errors := by
  induction rows with
  | nil => intro stw std idx hins hsub; exact hsub
  | cons row rest ih =>
    intro stw std idx hins hsub
    rw [scanRows_cons, scanRows_cons]
    apply ih
    · exact ((@processRow_dry sd store resd std idx row hd).2).trans hins
    · rw [processRow_errors, processRow_errors]
      have hex : itemExistsNow store std (rowItemCode row) = true →
          itemExistsNow store stw (rowItemCode row) = true := by
        intro h
        unfold itemExistsNow at h ⊢
        rw [hins] at h
        simp only [List.contains_nil, Bool.or_false] at h
        simp [h]
      cases hw : rowErrorOf store stw idx row with
      | some e =>
        have hd2 : rowErrorOf store std idx row = some e := rowError_some_mono hex hw
        rw [hd2]
        simpa using hsub.append (List.Sublist.refl [e])
      | none =>
        cases hd2 : rowErrorOf store std idx row with
        | none => simpa using hsub
        | some e2 =>
          simp only [Option.toList_none, List.append_nil]
          exact hsub.trans (List.sublist_append_left _ _)

lemma assocSet_find_self (c : String) (pay : StockPayload) :
    ∀ l : List (String × StockPayload),
      (assocSet l c pay).find? (fun q => q.1 == c) = some (c, pay) := by
  intro l
  induction l with
  | nil => simp [assocSet]
  | cons q rest ih =>
    rw [assocSet]
    split_ifs with hq
    · simp
    · rw [List.find?_cons_of_neg _ (by simp [hq]), ih]

lemma assocSet_find_ne {c2 c : String} (pay : StockPayload) (h : c2 ≠ c) :
    ∀ l : List (String × StockPayload),
      (assocSet l c2 pay).find? (fun q => q.1 == c) = l.find? (fun q => q.1 == c) := by
  intro l
  induction l with
  | nil => simp [assocSet, h]
  | cons q rest ih =>
    rw [assocSet]
    split_ifs with hq
    · rw [List.find?_cons_of_neg _ (by simp [h]),
        List.find?_cons_of_neg _ (by simp [hq, h])]
    · by_cases hqc : q.1 = c
      · rw [List.find?_cons_of_pos _ (by simp [hqc]), List.find?_cons_of_pos _ (by simp [hqc])]
      · rw [List.find?_cons_of_neg _ (by simp [hqc]), List.find?_cons_of_neg _ (by simp [hqc]),
          ih]

lemma stockMapGet_set_self (wh c : String) (pay : StockPayload) :
    ∀ m, stockMapGet (stockMapSet m wh c pay) wh c = some pay := by
  intro m
  induction m with
  | nil => simp [stockMapSet, stockMapGet, assocSet]
  | cons p rest ih =>
    rw [stockMapSet]
    split_ifs with hp
    · unfold stockMapGet
      rw [List.find?_cons_of_pos _ (by simp [hp])]
      simp [assocSet_find_self]
    · unfold stockMapGet at ih ⊢
      rw [List.find?_cons_of_neg _ (by simp [hp])]
      exact ih

lemma stockMapGet_set_ne {wh2 c2 wh c : String} (pay : StockPayload)
    (h : ¬(wh2 = wh ∧ c2 = c)) :
    ∀ m, stockMapGet (stockMapSet m wh2 c2 pay) wh c = stockMapGet m wh c := by
  intro m
  induction m with
  | nil =>
    by_cases hw : wh2 = wh
    · have hc : c2 ≠ c := fun hc => h ⟨hw, hc⟩
      simp [stockMapSet, stockMapGet, hw, hc]
    · simp [stockMapSet, stockMapGet, hw]
  | cons p rest ih =>
    rw [stockMapSet]
    split_ifs with hp
    · by_cases hw : p.1 = wh
      · have hww : wh2 = wh := by rw [← hp, hw]
        have hc : c2 ≠ c := fun hc => h ⟨hww, hc⟩
        unfold stockMapGet
        rw [List.find?_cons_of_pos _ (by simp [hw]), List.find?_cons_of_pos _ (by simp [hw])]
        simp [assocSet_find_ne _ hc]
      · unfold stockMapGet
        rw [List.find?_cons_of_neg _ (by simp [hw]), List.find?_cons_of_neg _ (by simp [hw])]
    · by_cases hw : p.1 = wh
      · unfold stockMapGet
        rw [List.find?_cons_of_pos _ (by simp [hw]), List.find?_cons_of_pos _ (by simp [hw])]
      · unfold stockMapGet at ih ⊢
        rw [List.find?_cons_of_neg _ (by simp [hw]), List.find?_cons_of_neg _ (by simp [hw])]
        exact ih

lemma rowStockPhase_stable {wh c : String} (hmem : (c, wh) ∈ st.stock_seen) :
    stockMapGet (rowStockPhase s st idx row).stock_map wh c = stockMapGet st.stock_map wh c ∧
      (c, wh) ∈ (rowStockPhase s st idx row).stock_seen := by
  unfold rowStockPhase
  split_ifs <;>
    first
      | exact ⟨rfl, hmem⟩
      | (rename_i hseen hval
         have hne : ¬(rowWarehouse s row = wh ∧ rowItemCode row = c) := by
           rintro ⟨hw, hc⟩
           exact hseen (by rw [hw, hc]; exact hmem)
         exact ⟨stockMapGet_set_ne _ hne _, List.mem_append.2 (Or.inl hmem)⟩)

lemma processRow_stock_stable {wh c : String} (hmem : (c, wh) ∈ st.stock_seen) :
    stockMapGet (processRow s store res st idx row).stock_map wh c =
        stockMapGet st.stock_map wh c ∧
      (c, wh) ∈ (processRow s store res st idx row).stock_seen := by
  unfold processRow
  cases hre : rowErrorOf store st idx row with
  | some e => exact ⟨rfl, hmem⟩
  | none =>
    have hm2 : (c, wh) ∈ (rowPricePhase s store res (rowItemPhase s store st row) row).stock_seen := by
      rw [rowPricePhase_stock_seen, rowItemPhase_stock_seen]; exact hmem
    obtain ⟨ha, hb⟩ := @rowStockPhase_stable s
      (rowPricePhase s store res (rowItemPhase s store st row) row) idx row wh c hm2
    refine ⟨?_, hb⟩
    rw [ha, rowPricePhase_stock_map, rowItemPhase_stock_map]

lemma scanRows_stock_stable {wh c : String} (rows : List RawRow) :
    ∀ (st : ScanState) (idx : Nat), (c, wh) ∈ st.stock_seen →
      stockMapGet (scanRows s store res st idx rows).stock_map wh c =
          stockMapGet st.stock_map wh c ∧
        (c, wh) ∈ (scanRows s store res st idx rows).stock_seen := by
  induction rows with
  | nil => intro st idx hmem; exact ⟨rfl, hmem⟩
  | cons row rest ih =>
    intro st idx hmem
    obtain ⟨h1, h2⟩ := @processRow_stock_stable s store res st idx row wh c hmem
    obtain ⟨h3, h4⟩ := ih (processRow s store res st idx row) (idx + 1) h2
    exact ⟨by rw [scanRows_cons, h3, h1], by rw [scanRows_cons]; exact h4⟩

lemma resolveConfig_required_iff :
    resolveConfig s store = .error (.diffAccountRequired msgDiffAccountRequired) ↔
      s.difference_account = "" ∧ s.skip_stock_reconciliation = false := by
  unfold resolveConfig
  dsimp only
  by_cases h1 : s.difference_account = "" ∧ ¬s.skip_stock_reconciliation = true
  · rw [if_pos h1]
    exact iff_of_true rfl ⟨h1.1, by simpa using h1.2⟩
  · rw [if_neg h1]
    by_cases h2 : s.difference_account = ""
    · rw [if_pos h2]
      exact iff_of_false (by simp) (fun h => h1 ⟨h.1, by simp [h.2]⟩)
    · rw [if_neg h2]
      refine iff_of_false ?_ (fun h => h2 h.1)
      cases hacc : store.account s.difference_account with
      | none => dsimp only; simp
      | some det => dsimp only; split_ifs <;> simp

lemma resolveConfig_missing_iff :
    resolveConfig s store = .error (.accountMissing (msgAccountMissing s.difference_account)) ↔
      s.difference_account ≠ "" ∧ store.account s.difference_account = none := by
  unfold resolveConfig
  dsimp only
  by_cases h1 : s.difference_account = "" ∧ ¬s.skip_stock_reconciliation = true
  · rw [if_pos h1]
    exact iff_of_false (by simp) (fun h => h.1 h1.1)
  · rw [if_neg h1]
    by_cases h2 : s.difference_account = ""
    · rw [if_pos h2]
      exact iff_of_false (by simp) (fun h => h.1 h2)
    · rw [if_neg h2]
      cases hacc : store.account s.difference_account with
      | none => dsimp only; exact iff_of_true rfl ⟨h2, rfl⟩
      | some det =>
        dsimp only
        refine iff_of_false ?_ (fun h => by simpa using h.2)
        split_ifs <;> simp

lemma resolveConfig_group_iff :
    resolveConfig s store = .error (.groupAccount (msgGroupAccount s.difference_account)) ↔
      s.difference_account ≠ "" ∧
        ∃ det, store.account s.difference_account = some det ∧ det.is_group = true := by
  unfold resolveConfig
  dsimp only
  by_cases h1 : s.difference_account = "" ∧ ¬s.skip_stock_reconciliation = true
  · rw [if_pos h1]
    exact iff_of_false (by simp) (fun h => h.1 h1.1)
  · rw [if_neg h1]
    by_cases h2 : s.difference_account = ""
    · rw [if_pos h2]
      exact iff_of_false (by simp) (fun h => h.1 h2)
    · rw [if_neg h2]
      cases hacc : store.account s.difference_account with
      | none =>
        dsimp only
        exact iff_of_false (by simp) (fun ⟨_, det, hdet, _⟩ => by simp at hdet)
      | some det =>
        dsimp only
        by_cases hg : det.is_group = true
        · rw [if_pos hg]
          exact iff_of_true rfl ⟨h2, det, rfl, hg⟩
        · rw [if_neg hg]
          refine iff_of_false ?_ (fun ⟨_, det2, hdet2, hgroup⟩ => ?_)
          · split_ifs <;> simp
          · simp only [Option.some.injEq] at hdet2
            subst hdet2
            exact hg hgroup

lemma resolveConfig_root_iff :
    (∃ m, resolveConfig s store = .error (.wrongRootType m)) ↔
      s.difference_account ≠ "" ∧
        ∃ det, store.account s.difference_account = some det ∧ det.is_group = false ∧
          det.root_type ≠ "Asset" ∧ det.root_type ≠ "Liability" := by
  unfold resolveConfig
  dsimp only
  by_cases h1 : s.difference_account = "" ∧ ¬s.skip_stock_reconciliation = true
  · rw [if_pos h1]
    exact iff_of_false (by simp) (fun h => h.1 h1.1)
  · rw [if_neg h1]
    by_cases h2 : s.difference_account = ""
    · rw [if_pos h2]
      exact iff_of_false (by simp) (fun h => h.1 h2)
    · rw [if_neg h2]
      cases hacc : store.account s.difference_account with
      | none =>
        dsimp only
        exact iff_of_false (by simp) (fun ⟨_, det, hdet, _⟩ => by simp at hdet)
      | some det =>
        dsimp only
        by_cases hg : det.is_group = true
        · rw [if_pos hg]
          exact iff_of_false (by simp) (fun ⟨_, det2, hdet2, hgroup, _⟩ => by
            simp only [Option.some.injEq] at hdet2
            subst hdet2
            simp [hg] at hgroup)
        · rw [if_neg hg]
          by_cases hrt : ¬(det.root_type = "Asset" ∨ det.root_type = "Liability")
          · rw [if_pos hrt]
            exact iff_of_true ⟨_, rfl⟩
              ⟨h2, det, rfl, by simpa using hg, fun h => hrt (Or.inl h), fun h => hrt (Or.inr h)⟩
          · rw [if_neg hrt]
            refine iff_of_false ?_ (fun ⟨_, det2, hdet2, _, ha, hl⟩ => ?_)
            · split_ifs <;> simp
            · simp only [Option.some.injEq] at hdet2
              subst hdet2
              rcases not_not.1 hrt with h | h
              · exact ha h
              · exact hl h

lemma resolveConfig_root_msg {det : AccountDetails} (hda : s.difference_account ≠ "")
    (hacc : store.account s.difference_account = some det) (hg : det.is_group = false)
    (hrt : ¬(det.root_type = "Asset" ∨ det.root_type = "Liability")) :
    resolveConfig s store =
      .error (.wrongRootType (msgWrongRootType s.difference_account det.root_type)) := by
  unfold resolveConfig
  dsimp only
  rw [if_neg (fun h => hda h.1), if_neg hda, hacc]
  dsimp only
  rw [if_neg (by simp [hg]), if_pos hrt]

lemma resolveConfig_adopt {det : AccountDetails} (hda : s.difference_account ≠ "")
    (hacc : store.account s.difference_account = some det) (hg : det.is_group = false)
    (hrt : det.root_type = "Asset" ∨ det.root_type = "Liability")
    (hnc : orStr s.default_company store.global_default_company = "") :
    resolveConfig s store =
      .ok { company := det.company
            currency := orStr s.default_currency store.global_default_currency
            difference_account := s.difference_account } := by
  unfold resolveConfig
  dsimp only
  rw [if_neg (fun h => hda h.1), if_neg hda, hacc]
  dsimp only
  rw [if_neg (by simp [hg]), if_neg (not_not_intro hrt)]
  simp [hnc]

lemma resolveConfig_mismatch {det : AccountDetails} (hda : s.difference_account ≠ "")
    (hacc : store.account s.difference_account = some det) (hg : det.is_group = false)
    (hrt : det.root_type = "Asset" ∨ det.root_type = "Liability")
    (hnc : orStr s.default_company store.global_default_company ≠ "")
    (hdiff : det.company ≠ orStr s.default_company store.global_default_company) :
    resolveConfig s store =
      .error (.companyMismatch (msgCompanyMismatch s.difference_account det.company
        (orStr s.default_company store.global_default_company))) := by
  unfold resolveConfig
  dsimp only
  rw [if_neg (fun h => hda h.1), if_neg hda, hacc]
  dsimp only
  rw [if_neg (by simp [hg]), if_neg (not_not_intro hrt)]
  simp only [if_neg hnc]
  rw [if_pos ⟨hnc, hdiff⟩]

lemma importCsv_result_shape {rows : List RawRow} (h : resolveConfig s store = .ok res) :
    (∃ sm, (importCsv s store rows).result = .ok sm) ∨
      (∃ m, (importCsv s store rows).result = .error (.rowErrors m)) ∨
      (∃ m, (importCsv s store rows).result = .error (.invalidDiffAccount m)) ∨
      (∃ m, (importCsv s store rows).result = .error (.storeValidation m)) := by
  unfold importCsv
  rw [h]
  dsimp only
  split
  · exact Or.inr (Or.inl ⟨_, rfl⟩)
  · split
    · rename_i e heq
      rcases hp : (if ¬s.skip_stock_reconciliation ∧ ¬s.dry_run then
          submitRecos store res.company res.difference_account
            (scanRows s store res {} 2 rows).stock_map 0 []
        else (0, [], none)).2.2 with _ | e2
      · rw [hp] at heq; exact absurd heq (by simp)
      · rw [hp] at heq
        simp only [Option.some.injEq] at heq
        subst heq
        split at hp
        · rcases submitRecos_error_shape _ _ _ hp with ⟨m, hm⟩ | ⟨m, hm⟩
          · subst hm; exact Or.inr (Or.inr (Or.inl ⟨_, rfl⟩))
          · subst hm; exact Or.inr (Or.inr (Or.inr ⟨_, rfl⟩))
        · simp at hp
    · exact Or.inl ⟨_, rfl⟩

lemma rowItemPhase_noop (hex : itemExistsNow store st (rowItemCode row) = true)
    (hupd : s.update_existing = false) :
    rowItemPhase s store st row = st := by
  unfold rowItemPhase
  simp [hex, hupd]

lemma rowPricePhase_noop (hupd : s.update_existing = false)
    (hpins : st.price_inserted = [])
    (hbase : rowPriceList s row ≠ "" → rowPriceListRate row ≠ "" →
      store.item_price_name (rowItemCode row) (rowPriceList s row) (rowCurrency res row) ≠ none) :
    rowPricePhase s store res st row = st := by
  unfold rowPricePhase
  by_cases hskip : ¬s.skip_item_price = true
  case neg => rw [if_neg hskip]
  case pos =>
    rw [if_pos hskip]
    by_cases hc : rowPriceList s row ≠ "" ∧ rowPriceListRate row ≠ ""
    case neg => rw [if_neg hc]
    case pos =>
      rw [if_pos hc]
      by_cases hd : ¬s.dry_run = true
      case neg => rw [if_neg hd]
      case pos =>
        rw [if_pos hd]
        unfold upsert_item_price priceNameNow
        rw [hpins]
        simp only [List.find?_nil]
        cases hn : store.item_price_name (rowItemCode row) (rowPriceList s row)
            (rowCurrency res row) with
        | none => exact absurd hn (hbase hc.1 hc.2)
        | some nm => simp [hupd]

lemma processRow_noop
    (hcode : rowItemCode row ≠ "")
    (hex : store.item_exists (rowItemCode row) = true)
    (hupd : s.update_existing = false)
    (hpins : st.price_inserted = [])
    (hbase : rowPriceList s row ≠ "" → rowPriceListRate row ≠ "" →
      store.item_price_name (rowItemCode row) (rowPriceList s row) (rowCurrency res row) ≠ none) :
    processRow s store res st idx row = rowStockPhase s st idx row := by
  have hexn : itemExistsNow store st (rowItemCode row) = true := by
    unfold itemExistsNow; simp [hex]
  have hre : rowErrorOf store st idx row = none := by
    unfold rowErrorOf
    rw [hexn]
    simp [rowError, hcode]
  rw [processRow_ok_eq hre, rowItemPhase_noop hexn hupd, rowPricePhase_noop hupd hpins hbase]

lemma scanRows_noop (hupd : s.update_existing = false) (rows : List RawRow)
    (hrows : ∀ row ∈ rows, rowItemCode row ≠ "" ∧ store.item_exists (rowItemCode row) = true ∧
      (rowPriceList s row ≠ "" → rowPriceListRate row ≠ "" →
        store.item_price_name (rowItemCode row) (rowPriceList s row) (rowCurrency res row) ≠ none)) :
    ∀ (st : ScanState) (idx : Nat),
      st.errors = [] → st.inserted_codes = [] → st.price_inserted = [] → st.effects = [] →
      st.created_items = 0 → st.updated_items = 0 → st.created_prices = 0 →
      st.updated_prices = 0 →
      (scanRows s store res st idx rows).errors = [] ∧
        (scanRows s store res st idx rows).effects = [] ∧
        (scanRows s store res st idx rows).created_items = 0 ∧
        (scanRows s store res st idx rows).updated_items = 0 ∧
        (scanRows s store res st idx rows).created_prices = 0 ∧
        (scanRows s store res st idx rows).updated_prices = 0 := by
  induction rows with
  | nil => intro st idx h1 h2 h3 h4 h5 h6 h7 h8; exact ⟨h1, h4, h5, h6, h7, h8⟩
  | cons row rest ih =>
    intro st idx h1 h2 h3 h4 h5 h6 h7 h8
    obtain ⟨hc, he, hb⟩ := hrows row (List.mem_cons_self _ _)
    have hstep := @processRow_noop s store res st idx row hc he hupd h3 hb
    rw [scanRows_cons, hstep]
    exact ih (fun r hr => hrows r (List.mem_cons_of_mem _ hr)) (rowStockPhase s st idx row)
      (idx + 1) (by simp [h1]) (by simp [h2]) (by simp [h3]) (by simp [h4]) (by simp [h5])
      (by simp [h6]) (by simp [h7]) (by simp [h8])

lemma importCsv_phase_fail {rows : List RawRow} {e : ImportError}
    (h : resolveConfig s store = .ok res)
    (hz : (scanRows s store res {} 2 rows).errors = [])
    (hp : (if ¬s.skip_stock_reconciliation ∧ ¬s.dry_run then
        submitRecos store res.company res.difference_account
          (scanRows s store res {} 2 rows).stock_map 0 []
      else (0, [], none)).2.2 = some e) :
    importCsv s store rows =
      { result := .error e
        effects := (scanRows s store res {} 2 rows).effects ++
          (if ¬s.skip_stock_reconciliation ∧ ¬s.dry_run then
              submitRecos store res.company res.difference_account
                (scanRows s store res {} 2 rows).stock_map 0 []
            else (0, [], none)).2.1
        log_writes := []
        error_logs := []
        row_errors := []
        notes := (scanRows s store res {} 2 rows).log_lines } := by
  rw [importCsv_no_row_errors h hz]
  dsimp only
  rw [hp, hz]

lemma importCsv_phase_ok {rows : List RawRow}
    (h : resolveConfig s store = .ok res)
    (hz : (scanRows s store res {} 2 rows).errors = [])
    (hp : (if ¬s.skip_stock_reconciliation ∧ ¬s.dry_run then
        submitRecos store res.company res.difference_account
          (scanRows s store res {} 2 rows).stock_map 0 []
      else (0, [], none)).2.2 = none) :
    importCsv s store rows =
      (let st := scanRows s store res {} 2 rows
       let phase :=
         if ¬s.skip_stock_reconciliation ∧ ¬s.dry_run then
           submitRecos store res.company res.difference_account st.stock_map 0 []
         else (0, [], none)
       let sm : Summary :=
         { created_items := st.created_items
           updated_items := st.updated_items
           created_prices := st.created_prices
           updated_prices := st.updated_prices
           stock_reconciliations := phase.1 }
       let msg := write_log_message [] st.log_lines (some sm)
       { result := .ok sm
         effects := st.effects ++ phase.2.1
         log_writes := if msg ≠ "" then [msg] else []
         error_logs := []
         row_errors := []
         notes := st.log_lines }) := by
  rw [importCsv_no_row_errors h hz]
  dsimp only
  rw [hp, hz]

end ScanLemmas

/-- C1 counterexample: a file whose second data row is valid and whose third
lacks an item code runs with dry-run off; the run fails with the row error,
yet an item insertion was already issued against the store for the valid
row — the claimed "zero item insertions" is false. -/
theorem claim_C1_counterexample :
    (importCsv settingsSkipAll cexStore [rowFull, rowNoCode]).row_errors =
        ["Row 3: Missing Item Code"] ∧
      (importCsv settingsSkipAll cexStore [rowFull, rowNoCode]).effects =
        [Effect.insertItem widgetDoc] := by
  exact ⟨rfl, rfl⟩

/-- C1 (amended): when any row fails validation, `import_csv` issues zero
stock-reconciliation writes and fails with a single error joining all
accumulated row errors (also sending the error log); item and price writes
already issued during the scan for individually-valid rows are, however,
not undone by the importer itself. -/
theorem claim_C1_all_or_nothing_amended (s : Settings) (store : Store) (rows : List RawRow)
    (h : (importCsv s store rows).row_errors ≠ []) :
    (importCsv s store rows).result =
        .error (.rowErrors (String.intercalate "\n" (importCsv s store rows).row_errors)) ∧
      (∀ e ∈ (importCsv s store rows).effects, e.isStockWrite = false) ∧
      (importCsv s store rows).error_logs =
        [write_log_message (importCsv s store rows).row_errors
          (importCsv s store rows).notes none] := by
  cases hr : resolveConfig s store with
  | error e => rw [importCsv_config_error hr] at h; exact absurd rfl h
  | ok res =>
    have hz : (scanRows s store res {} 2 rows).errors ≠ [] := by
      rw [importCsv_row_errors_eq hr] at h; exact h
    rw [importCsv_errors_branch hr hz]
    refine ⟨rfl, ?_, rfl⟩
    intro e he
    obtain ⟨l, hl, hall⟩ := @scanRows_effects_append s store res rows {} 2
    rw [hl] at he
    have hnil : ({} : ScanState).effects = [] := rfl
    rw [hnil, List.nil_append] at he
    exact hall e he

/-- C1 amended witness at a concrete erroring run. -/
theorem claim_C1_all_or_nothing_amended_witness :
    (importCsv settingsSkipAll cexStore [rowFull, rowNoCode]).result =
        .error (.rowErrors (String.intercalate "\n"
          (importCsv settingsSkipAll cexStore [rowFull, rowNoCode]).row_errors)) ∧
      ∀ e ∈ (importCsv settingsSkipAll cexStore [rowFull, rowNoCode]).effects,
        e.isStockWrite = false := by
  have h := claim_C1_all_or_nothing_amended settingsSkipAll cexStore [rowFull, rowNoCode]
    (by decide)
  exact ⟨h.1, h.2.1⟩

/-- C2 counterexample: with dry-run on, a later duplicate row of a new item
is reported as missing its item name, while the non-dry run inserted the
item first and reports no error — the claimed identical error sets are
false. -/
theorem claim_C2_counterexample :
    (importCsv { settingsDA with dry_run := true } cexStore [rowFull, rowCodeOnly]).row_errors =
        ["Row 3: Item Name required for new Item ITM1"] ∧
      (importCsv settingsDA cexStore [rowFull, rowCodeOnly]).row_errors = [] ∧
      (importCsv { settingsDA with dry_run := true } cexStore
          [rowFull, rowCodeOnly]).row_errors ≠
        (importCsv settingsDA cexStore [rowFull, rowCodeOnly]).row_errors := by
  exact ⟨rfl, rfl, by decide⟩

/-- C2 (amended): dry-run performs zero store writes regardless of error
state, and every row error of the non-dry run is also reported by the dry
run (the non-dry-run error list is a sublist of the dry-run one); the two
coincide except when a non-dry-run item insertion lets a later row with the
same new item code pass existence-based validation. -/
theorem claim_C2_dry_run_amended (s : Settings) (store : Store) (rows : List RawRow) :
    (importCsv { s with dry_run := true } store rows).effects = [] ∧
      (importCsv { s with dry_run := false } store rows).row_errors.Sublist
        (importCsv { s with dry_run := true } store rows).row_errors := by
  cases hr : resolveConfig s store with
  | error e =>
    have h1 : resolveConfig { s with dry_run := true } store = .error e := by
      rw [resolveConfig_dry_irrel]; exact hr
    have h0 : resolveConfig { s with dry_run := false } store = .error e := by
      rw [resolveConfig_dry_irrel]; exact hr
    rw [importCsv_config_error h1, importCsv_config_error h0]
    exact ⟨rfl, List.Sublist.refl _⟩
  | ok res =>
    have h1 : resolveConfig { s with dry_run := true } store = .ok res := by
      rw [resolveConfig_dry_irrel]; exact hr
    have h0 : resolveConfig { s with dry_run := false } store = .ok res := by
      rw [resolveConfig_dry_irrel]; exact hr
    obtain ⟨hse, _⟩ := @scanRows_dry { s with dry_run := true } store res rfl rows
      ({} : ScanState) 2
    have hse0 : (scanRows { s with dry_run := true } store res {} 2 rows).effects = [] :=
      hse.trans rfl
    constructor
    · unfold importCsv
      rw [h1]
      dsimp only
      split
      · exact hse0
      · rw [if_neg (fun hc => hc.2 rfl)]
        dsimp only
        rw [hse0]
        rfl
    · rw [importCsv_row_errors_eq h0, importCsv_row_errors_eq h1]
      exact @scan_errors_sublist store { s with dry_run := false }
        { s with dry_run := true } res res rfl rows {} {} 2 rfl (List.Sublist.refl _)

/-- C3: configuration resolution fails, before any row is processed and
with no store write, exactly as claimed: each of the four conditions
(difference account unset while reconciliation is not skipped; account not
found; group account; root type neither Asset nor Liability, in check
order) holds iff the run fails with the corresponding configuration error,
and any configuration failure leaves the run with no effects, no row
errors and no log writes. -/
theorem claim_C3_config_fail_fast (s : Settings) (store : Store) (rows : List RawRow) :
    ((importCsv s store rows).result = .error (.diffAccountRequired msgDiffAccountRequired) ↔
      s.difference_account = "" ∧ s.skip_stock_reconciliation = false) ∧
    ((importCsv s store rows).result =
        .error (.accountMissing (msgAccountMissing s.difference_account)) ↔
      s.difference_account ≠ "" ∧ store.account s.difference_account = none) ∧
    ((importCsv s store rows).result =
        .error (.groupAccount (msgGroupAccount s.difference_account)) ↔
      s.difference_account ≠ "" ∧
        ∃ det, store.account s.difference_account = some det ∧ det.is_group = true) ∧
    ((∃ m, (importCsv s store rows).result = .error (.wrongRootType m)) ↔
      s.difference_account ≠ "" ∧
        ∃ det, store.account s.difference_account = some det ∧ det.is_group = false ∧
          det.root_type ≠ "Asset" ∧ det.root_type ≠ "Liability") ∧
    (∀ det, s.difference_account ≠ "" → store.account s.difference_account = some det →
      det.is_group = false → ¬(det.root_type = "Asset" ∨ det.root_type = "Liability") →
      (importCsv s store rows).result =
        .error (.wrongRootType (msgWrongRootType s.difference_account det.root_type))) ∧
    (∀ e, resolveConfig s store = .error e →
      importCsv s store rows =
        { result := .error e, effects := [], log_writes := [], error_logs := []
          row_errors := [], notes := [] }) := by
  have lift : ∀ E : ImportError,
      (∀ m, E ≠ .rowErrors m) → (∀ m, E ≠ .invalidDiffAccount m) →
      (∀ m, E ≠ .storeValidation m) →
      ((importCsv s store rows).result = .error E ↔ resolveConfig s store = .error E) := by
    intro E hE1 hE2 hE3
    constructor
    · intro h
      cases hr : resolveConfig s store with
      | error e =>
        rw [importCsv_config_error hr] at h
        simp only [Except.error.injEq] at h
        exact congrArg Except.error h
      | ok res =>
        rcases @importCsv_result_shape s store res rows hr with
          ⟨sm, hs⟩ | ⟨m, hs⟩ | ⟨m, hs⟩ | ⟨m, hs⟩
        · rw [hs] at h; exact absurd h (by simp)
        · rw [hs] at h
          simp only [Except.error.injEq] at h
          exact absurd h.symm (hE1 m)
        · rw [hs] at h
          simp only [Except.error.injEq] at h
          exact absurd h.symm (hE2 m)
        · rw [hs] at h
          simp only [Except.error.injEq] at h
          exact absurd h.symm (hE3 m)
    · intro h
      rw [importCsv_config_error h]
  refine ⟨?_, ?_, ?_, ?_, ?_, ?_⟩
  · exact (lift _ (by simp) (by simp) (by simp)).trans resolveConfig_required_iff
  · exact (lift _ (by simp) (by simp) (by simp)).trans resolveConfig_missing_iff
  · exact (lift _ (by simp) (by simp) (by simp)).trans resolveConfig_group_iff
  · constructor
    · rintro ⟨m, hm⟩
      exact resolveConfig_root_iff.1
        ⟨m, (lift _ (by simp) (by simp) (by simp)).1 hm⟩
    · intro hrhs
      obtain ⟨m, hm⟩ := resolveConfig_root_iff.2 hrhs
      exact ⟨m, (lift _ (by simp) (by simp) (by simp)).2 hm⟩
  · intro det hda hacc hg hrt
    rw [importCsv_config_error (resolveConfig_root_msg hda hacc hg hrt)]
  · exact fun e he => importCsv_config_error he

/-- C3 witness: with an empty difference account and reconciliation not
skipped, the run fails with the required-account error. -/
theorem claim_C3_config_fail_fast_witness :
    (importCsv {} cexStore []).result =
      .error (.diffAccountRequired msgDiffAccountRequired) := by
  exact (claim_C3_config_fail_fast {} cexStore []).1.mpr ⟨rfl, rfl⟩

/-- C4: per-row validation checks, in this exact order, missing item code,
then (for items absent from the store) missing item name, item group and
stock UOM; the first failing check yields the row's single error and skips
the row, every remaining row is still scanned, and the scan starts at
1-based line number 2, the header being line 1. -/
theorem claim_C4_row_validation_order :
    (∀ (idx : Nat) (code : String) (ex : Bool) (nm gp um : String),
      (code = "" → rowError idx code ex nm gp um = some (msgMissingItemCode idx)) ∧
      (code ≠ "" → ex = false → nm = "" →
        rowError idx code ex nm gp um = some (msgItemNameRequired idx code)) ∧
      (code ≠ "" → ex = false → nm ≠ "" → gp = "" →
        rowError idx code ex nm gp um = some (msgItemGroupRequired idx code)) ∧
      (code ≠ "" → ex = false → nm ≠ "" → gp ≠ "" → um = "" →
        rowError idx code ex nm gp um = some (msgStockUomRequired idx code)) ∧
      (code ≠ "" → (ex = true ∨ (nm ≠ "" ∧ gp ≠ "" ∧ um ≠ "")) →
        rowError idx code ex nm gp um = none)) ∧
    (∀ (s : Settings) (store : Store) (res : Resolved) (st : ScanState) (idx : Nat)
        (row : RawRow) (e : String),
      rowErrorOf store st idx row = some e →
      processRow s store res st idx row = { st with errors := st.errors ++ [e] }) ∧
    (∀ (s : Settings) (store : Store) (res : Resolved) (st : ScanState) (idx : Nat)
        (row : RawRow),
      (processRow s store res st idx row).errors =
        st.errors ++ (rowErrorOf store st idx row).toList) ∧
    (∀ (s : Settings) (store : Store) (res : Resolved) (st : ScanState) (idx : Nat)
        (xs ys : List RawRow),
      scanRows s store res st idx (xs ++ ys) =
        scanRows s store res (scanRows s store res st idx xs) (idx + xs.length) ys) ∧
    (∀ (s : Settings) (store : Store) (res : Resolved) (rows : List RawRow),
      resolveConfig s store = .ok res →
      (importCsv s store rows).row_errors = (scanRows s store res {} 2 rows).errors) := by
  refine ⟨?_, ?_, ?_, ?_, ?_⟩
  · intro idx code ex nm gp um
    refine ⟨?_, ?_, ?_, ?_, ?_⟩
    · intro h; simp [rowError, h]
    · intro h1 h2 h3; simp [rowError, h1, h2, h3]
    · intro h1 h2 h3 h4; simp [rowError, h1, h2, h3, h4]
    · intro h1 h2 h3 h4 h5; simp [rowError, h1, h2, h3, h4, h5]
    · intro h1 h2
      rcases h2 with h2 | ⟨ha, hb, hc⟩
      · simp [rowError, h1, h2]
      · simp [rowError, h1, ha, hb, hc]
  · exact fun s store res st idx row e h => processRow_error_eq h
  · exact fun s store res st idx row => processRow_errors
  · exact fun s store res st idx xs ys => scanRows_append xs ys st idx
  · exact fun s store res rows h => importCsv_row_errors_eq h

/-- C4 witness: a row with an empty item code errors with its 1-based line
number 2, and the run's row errors are those of the scan started at 2. -/
theorem claim_C4_row_validation_order_witness :
    rowError 2 "" true "" "" "" = some (msgMissingItemCode 2) ∧
      (importCsv settingsSkipAll cexStore [rowNoCode]).row_errors =
        (scanRows settingsSkipAll cexStore
          { company := "", currency := "", difference_account := "" } {} 2 [rowNoCode]).errors := by
  refine ⟨(claim_C4_row_validation_order.1 2 "" true "" "" "").1 rfl, ?_⟩
  exact claim_C4_row_validation_order.2.2.2.2 settingsSkipAll cexStore
    { company := "", currency := "", difference_account := "" } [rowNoCode] rfl

/-- C5: for a valid stock-eligible row (non-empty warehouse, non-empty
positive quantity), a fresh (item, warehouse) key records that row's
quantity and valuation as the contribution and adds no note, a key already
seen leaves the recorded map unchanged and adds exactly one duplicate note
(not an error), and a recorded contribution never changes for the rest of
the scan. -/
theorem claim_C5_stock_dedup :
    (∀ (s : Settings) (store : Store) (res : Resolved) (st : ScanState) (idx : Nat)
        (row : RawRow),
      rowErrorOf store st idx row = none →
      s.skip_stock_reconciliation = false →
      rowWarehouse s row ≠ "" → rowOpeningQty row ≠ "" → flt (rowOpeningQty row) > 0 →
      ((rowItemCode row, rowWarehouse s row) ∉ st.stock_seen →
        stockMapGet (processRow s store res st idx row).stock_map (rowWarehouse s row)
            (rowItemCode row) =
          some { qty := flt (rowOpeningQty row)
                 valuation_rate :=
                   if rowValuationRate row ≠ "" then flt (rowValuationRate row) else 0 } ∧
        (rowItemCode row, rowWarehouse s row) ∈ (processRow s store res st idx row).stock_seen ∧
        (processRow s store res st idx row).log_lines = st.log_lines) ∧
      ((rowItemCode row, rowWarehouse s row) ∈ st.stock_seen →
        (processRow s store res st idx row).stock_map = st.stock_map ∧
        (processRow s store res st idx row).stock_seen = st.stock_seen ∧
        (processRow s store res st idx row).log_lines =
          st.log_lines ++ [msgDuplicateStock idx (rowItemCode row) (rowWarehouse s row)])) ∧
    (∀ (s : Settings) (store : Store) (res : Resolved) (rows : List RawRow) (st : ScanState)
        (idx : Nat) (wh c : String),
      (c, wh) ∈ st.stock_seen →
      stockMapGet (scanRows s store res st idx rows).stock_map wh c =
          stockMapGet st.stock_map wh c ∧
        (c, wh) ∈ (scanRows s store res st idx rows).stock_seen) := by
  constructor
  · intro s store res st idx row hre hskip hwh hoq hq
    have hpr := @processRow_ok_eq s store res st idx row hre
    have h2map : (rowPricePhase s store res (rowItemPhase s store st row) row).stock_map =
        st.stock_map := by
      rw [rowPricePhase_stock_map, rowItemPhase_stock_map]
    have h2seen : (rowPricePhase s store res (rowItemPhase s store st row) row).stock_seen =
        st.stock_seen := by
      rw [rowPricePhase_stock_seen, rowItemPhase_stock_seen]
    have h2log : (rowPricePhase s store res (rowItemPhase s store st row) row).log_lines =
        st.log_lines := by
      rw [rowPricePhase_log_lines, rowItemPhase_log_lines]
    constructor
    · intro hfresh
      rw [hpr]
      unfold rowStockPhase
      rw [if_pos (by simp [hskip]), if_pos ⟨hwh, hoq⟩, if_pos hq,
        if_neg (by rw [h2seen]; exact hfresh)]
      refine ⟨?_, ?_, ?_⟩
      · dsimp only
        rw [h2map]
        exact stockMapGet_set_self _ _ _ _
      · dsimp only
        rw [h2seen]
        exact List.mem_append.2 (Or.inr (by simp))
      · dsimp only
        exact h2log
    · intro hdup
      rw [hpr]
      unfold rowStockPhase
      rw [if_pos (by simp [hskip]), if_pos ⟨hwh, hoq⟩, if_pos hq,
        if_pos (by rw [h2seen]; exact hdup)]
      refine ⟨h2map, h2seen, ?_⟩
      dsimp only
      rw [h2log]
  · intro s store res rows st idx wh c hmem
    exact @scanRows_stock_stable s store res wh c rows st idx hmem

/-- C5 witness: the first stock row for (ITM1, WH1) adds no note; the same
row against a state that has already seen the key leaves the map untouched
and adds exactly the duplicate note. -/
theorem claim_C5_stock_dedup_witness :
    (processRow settingsDA cexStore
        { company := "C1", currency := "", difference_account := "DA" } {} 2 rowFull).log_lines =
        [] ∧
      (processRow settingsDA cexStore
          { company := "C1", currency := "", difference_account := "DA" }
          { stock_seen := [("ITM1", "WH1")] } 2 rowFull).log_lines =
        ["Row 2: Duplicate stock row for ITM1 in WH1; using first occurrence."] := by
  have h1 := (claim_C5_stock_dedup.1 settingsDA cexStore
    { company := "C1", currency := "", difference_account := "DA" } {} 2 rowFull
    rfl rfl (by decide) (by decide) (by decide)).1 (by decide)
  have h2 := (claim_C5_stock_dedup.1 settingsDA cexStore
    { company := "C1", currency := "", difference_account := "DA" }
    { stock_seen := [("ITM1", "WH1")] } 2 rowFull
    rfl rfl (by decide) (by decide) (by decide)).2 (by decide)
  refine ⟨h1.2.2, ?_⟩
  rw [h2.2.2]
  rfl

/-- C6: a clean re-run with updateExisting unset against a store that
already contains every item and every price the file would touch reports no
row errors, issues only stock-reconciliation writes, and returns
createdItems = updatedItems = createdPrices = updatedPrices = 0. -/
theorem claim_C6_idempotent_rerun (s : Settings) (store : Store) (res : Resolved)
    (rows : List RawRow)
    (hres : resolveConfig s store = .ok res)
    (hupd : s.update_existing = false)
    (hrows : ∀ row ∈ rows, rowItemCode row ≠ "" ∧ store.item_exists (rowItemCode row) = true ∧
      (rowPriceList s row ≠ "" → rowPriceListRate row ≠ "" →
        store.item_price_name (rowItemCode row) (rowPriceList s row)
          (rowCurrency res row) ≠ none)) :
    (importCsv s store rows).row_errors = [] ∧
      (∀ e ∈ (importCsv s store rows).effects, e.isStockWrite = true) ∧
      ∀ sm, (importCsv s store rows).result = .ok sm →
        sm.created_items = 0 ∧ sm.updated_items = 0 ∧
          sm.created_prices = 0 ∧ sm.updated_prices = 0 := by
  obtain ⟨hz, heff, hci, hui, hcp, hup⟩ := @scanRows_noop s store res hupd rows hrows
    {} 2 rfl rfl rfl rfl rfl rfl rfl rfl
  refine ⟨?_, ?_, ?_⟩
  · rw [importCsv_row_errors_eq hres]
    exact hz
  · intro e he
    rcases hp : (if ¬s.skip_stock_reconciliation ∧ ¬s.dry_run then
        submitRecos store res.company res.difference_account
          (scanRows s store res {} 2 rows).stock_map 0 []
      else (0, [], none)).2.2 with _ | e2
    · rw [importCsv_phase_ok hres hz hp] at he
      dsimp only at he
      rw [heff, List.nil_append] at he
      by_cases hcond : ¬s.skip_stock_reconciliation = true ∧ ¬s.dry_run = true
      · rw [if_pos hcond] at he
        exact submitRecos_effects_stock _ _ _ (fun x hx => absurd hx (List.not_mem_nil x)) e he
      · rw [if_neg hcond] at he
        exact absurd he (List.not_mem_nil e)
    · rw [importCsv_phase_fail hres hz hp] at he
      dsimp only at he
      rw [heff, List.nil_append] at he
      by_cases hcond : ¬s.skip_stock_reconciliation = true ∧ ¬s.dry_run = true
      · rw [if_pos hcond] at he
        exact submitRecos_effects_stock _ _ _ (fun x hx => absurd hx (List.not_mem_nil x)) e he
      · rw [if_neg hcond] at he
        exact absurd he (List.not_mem_nil e)
  · intro sm hsm
    rcases hp : (if ¬s.skip_stock_reconciliation ∧ ¬s.dry_run then
        submitRecos store res.company res.difference_account
          (scanRows s store res {} 2 rows).stock_map 0 []
      else (0, [], none)).2.2 with _ | e2
    · rw [importCsv_phase_ok hres hz hp] at hsm
      dsimp only at hsm
      simp only [Except.ok.injEq] at hsm
      rw [← hsm]
      exact ⟨hci, hui, hcp, hup⟩
    · rw [importCsv_phase_fail hres hz hp] at hsm
      exact absurd hsm (by simp)

/-- C6 witness: re-running a one-row file against a store that already has
the item yields zero created and updated counts. -/
theorem claim_C6_idempotent_rerun_witness :
    (importCsv settingsSkipAll cexStoreItemsExist [rowCodeOnly]).row_errors = [] ∧
      ∀ sm, (importCsv settingsSkipAll cexStoreItemsExist [rowCodeOnly]).result = .ok sm →
        sm.created_items = 0 ∧ sm.updated_items = 0 ∧
          sm.created_prices = 0 ∧ sm.updated_prices = 0 := by
  have h := claim_C6_idempotent_rerun settingsSkipAll cexStoreItemsExist
    { company := "", currency := "", difference_account := "" } [rowCodeOnly] rfl rfl ?_
  · exact ⟨h.1, h.2.2⟩
  · intro row hrow
    simp only [List.mem_singleton] at hrow
    subst hrow
    exact ⟨by decide, rfl, fun hpl _ => absurd (by decide) hpl⟩

/-- C7 counterexample: with no company in the import settings but a
store-wide default company differing from the account's company, the run
fails with the company-mismatch error instead of adopting the account's
company — the claim's "not explicitly given implies adoption" is false. -/
theorem claim_C7_counterexample :
    settingsDA.default_company = "" ∧
      (importCsv settingsDA cexStoreGlobalCo []).result =
        .error (.companyMismatch (msgCompanyMismatch "DA" "C1" "GlobalCo")) := by
  exact ⟨rfl, rfl⟩

/-- C7 (amended): for a well-typed ledger difference account, if neither
the import settings nor the global defaults supply a company the resolved
company is adopted from the account; if the effective company (settings
value, else the global default) is set and differs from the account's
company, resolution fails with the mismatch error naming the account's
company. -/
theorem claim_C7_company_resolution_amended (s : Settings) (store : Store)
    (det : AccountDetails)
    (hda : s.difference_account ≠ "")
    (hacc : store.account s.difference_account = some det)
    (hg : det.is_group = false)
    (hrt : det.root_type = "Asset" ∨ det.root_type = "Liability") :
    (orStr s.default_company store.global_default_company = "" →
      resolveConfig s store =
        .ok { company := det.company
              currency := orStr s.default_currency store.global_default_currency
              difference_account := s.difference_account }) ∧
    (orStr s.default_company store.global_default_company ≠ "" →
      det.company ≠ orStr s.default_company store.global_default_company →
      resolveConfig s store =
        .error (.companyMismatch (msgCompanyMismatch s.difference_account det.company
          (orStr s.default_company store.global_default_company)))) := by
  exact ⟨fun h => resolveConfig_adopt hda hacc hg hrt h,
    fun h1 h2 => resolveConfig_mismatch hda hacc hg hrt h1 h2⟩

/-- C7 amended witness: with no company given anywhere, the resolver adopts
the account's company C1. -/
theorem claim_C7_company_resolution_amended_witness :
    resolveConfig settingsDA cexStore =
      .ok { company := "C1", currency := "", difference_account := "DA" } := by
  exact (claim_C7_company_resolution_amended settingsDA cexStore assetAccount
    (by decide) rfl rfl (Or.inl rfl)).1 rfl

/-- C8 counterexample: a run aborted by a row error writes a log with no
summary section, and a run aborted by a stock-reconciliation submission
failure writes no final log at all — the claimed always-written
summary-bearing log is false. -/
theorem claim_C8_counterexample :
    (importCsv settingsSkipAll cexStore [rowNoCode]).log_writes =
        ["Errors\nRow 2: Missing Item Code"] ∧
      containsSub "Errors\nRow 2: Missing Item Code" "Summary" = false ∧
      (importCsv settingsDA cexStoreSubmitFail [rowFull]).log_writes = [] := by
  exact ⟨rfl, by decide, rfl⟩

/-- C8 (amended): past configuration resolution, a run aborted by row
errors writes the rendered notes-and-errors log (no summary) and sends the
error log; a run that completes writes the rendered summary-and-notes log;
a run aborted by a store failure during stock-reconciliation submission
writes no final log. -/
theorem claim_C8_final_log_amended (s : Settings) (store : Store) (res : Resolved)
    (rows : List RawRow)
    (hres : resolveConfig s store = .ok res) :
    ((importCsv s store rows).row_errors ≠ [] →
      (importCsv s store rows).log_writes =
        (if write_log_message (importCsv s store rows).row_errors
            (importCsv s store rows).notes none ≠ "" then
          [write_log_message (importCsv s store rows).row_errors
            (importCsv s store rows).notes none]
        else []) ∧
      (importCsv s store rows).error_logs =
        [write_log_message (importCsv s store rows).row_errors
          (importCsv s store rows).notes none]) ∧
    (∀ sm, (importCsv s store rows).result = .ok sm →
      (importCsv s store rows).log_writes =
        (if write_log_message [] (importCsv s store rows).notes (some sm) ≠ "" then
          [write_log_message [] (importCsv s store rows).notes (some sm)]
        else [])) ∧
    (((∃ m, (importCsv s store rows).result = .error (.invalidDiffAccount m)) ∨
        ∃ m, (importCsv s store rows).result = .error (.storeValidation m)) →
      (importCsv s store rows).log_writes = [] ∧ (importCsv s store rows).error_logs = []) := by
  refine ⟨?_, ?_, ?_⟩
  · intro hne
    have hz : (scanRows s store res {} 2 rows).errors ≠ [] := by
      rw [importCsv_row_errors_eq hres] at hne
      exact hne
    rw [importCsv_errors_branch hres hz]
    exact ⟨rfl, rfl⟩
  · intro sm hsm
    by_cases hz : (scanRows s store res {} 2 rows).errors = []
    · rcases hp : (if ¬s.skip_stock_reconciliation ∧ ¬s.dry_run then
          submitRecos store res.company res.difference_account
            (scanRows s store res {} 2 rows).stock_map 0 []
        else (0, [], none)).2.2 with _ | e2
      · rw [importCsv_phase_ok hres hz hp] at hsm ⊢
        dsimp only at hsm ⊢
        simp only [Except.ok.injEq] at hsm
        rw [← hsm]
      · rw [importCsv_phase_fail hres hz hp] at hsm
        exact absurd hsm (by simp)
    · rw [importCsv_errors_branch hres hz] at hsm
      exact absurd hsm (by simp)
  · intro hm
    by_cases hz : (scanRows s store res {} 2 rows).errors = []
    · rcases hp : (if ¬s.skip_stock_reconciliation ∧ ¬s.dry_run then
          submitRecos store res.company res.difference_account
            (scanRows s store res {} 2 rows).stock_map 0 []
        else (0, [], none)).2.2 with _ | e2
      · rcases hm with ⟨m, hmm⟩ | ⟨m, hmm⟩ <;>
          (rw [importCsv_phase_ok hres hz hp] at hmm; exact absurd hmm (by simp))
      · rw [importCsv_phase_fail hres hz hp]
        exact ⟨rfl, rfl⟩
    · rcases hm with ⟨m, hmm⟩ | ⟨m, hmm⟩ <;>
        (rw [importCsv_errors_branch hres hz] at hmm; exact absurd hmm (by simp))

/-- C8 amended witness: a concrete erroring run writes exactly the rendered
errors log. -/
theorem claim_C8_final_log_amended_witness :
    (importCsv settingsSkipAll cexStore [rowNoCode]).log_writes =
      (if write_log_message (importCsv settingsSkipAll cexStore [rowNoCode]).row_errors
          (importCsv settingsSkipAll cexStore [rowNoCode]).notes none ≠ "" then
        [write_log_message (importCsv settingsSkipAll cexStore [rowNoCode]).row_errors
          (importCsv settingsSkipAll cexStore [rowNoCode]).notes none]
      else []) := by
  exact ((claim_C8_final_log_amended settingsSkipAll cexStore
    { company := "", currency := "", difference_account := "" } [rowNoCode] rfl).1
    (by decide)).1

/-- C9: the delimiter used to parse the file is the comma whenever the
setting is unset (modelled as empty), empty or whitespace-only, and
otherwise the setting with surrounding whitespace stripped. -/
theorem claim_C9_delimiter_default (d : String) :
    resolveDelimiter d = if pyStrip d = "" then "," else pyStrip d := by
  unfold resolveDelimiter orStr
  by_cases h : d = ""
  · subst h
    decide
  · rw [if_neg h]

/-- C10: applying a row to an existing item assigns exactly the fields
whose extracted value is non-empty (tri-state booleans: parsed, including
zero) and leaves every other field — including the item code — unchanged,
except that a non-empty item-tax value replaces the whole taxes list with
that single entry. -/
theorem claim_C10_item_update_frame (item : Item) (n : RawRow)
    (item_name item_group stock_uom : String) :
    (apply_item_fields item n item_name item_group stock_uom).item_code = item.item_code ∧
    (item_name = "" →
      (apply_item_fields item n item_name item_group stock_uom).item_name = item.item_name) ∧
    (item_name ≠ "" →
      (apply_item_fields item n item_name item_group stock_uom).item_name = item_name) ∧
    (item_group = "" →
      (apply_item_fields item n item_name item_group stock_uom).item_group = item.item_group) ∧
    (item_group ≠ "" →
      (apply_item_fields item n item_name item_group stock_uom).item_group = item_group) ∧
    (stock_uom = "" →
      (apply_item_fields item n item_name item_group stock_uom).stock_uom = item.stock_uom) ∧
    (stock_uom ≠ "" →
      (apply_item_fields item n item_name item_group stock_uom).stock_uom = stock_uom) ∧
    (get_value n ["description"] = "" →
      (apply_item_fields item n item_name item_group stock_uom).description =
        item.description) ∧
    (get_value n ["description"] ≠ "" →
      (apply_item_fields item n item_name item_group stock_uom).description =
        get_value n ["description"]) ∧
    (get_value n ["gst_hsn_code", "hsn", "hsn_code"] = "" →
      (apply_item_fields item n item_name item_group stock_uom).gst_hsn_code =
        item.gst_hsn_code) ∧
    (get_value n ["gst_hsn_code", "hsn", "hsn_code"] ≠ "" →
      (apply_item_fields item n item_name item_group stock_uom).gst_hsn_code =
        get_value n ["gst_hsn_code", "hsn", "hsn_code"]) ∧
    (get_value n ["barcode"] = "" →
      (apply_item_fields item n item_name item_group stock_uom).barcode = item.barcode) ∧
    (get_value n ["barcode"] ≠ "" →
      (apply_item_fields item n item_name item_group stock_uom).barcode =
        get_value n ["barcode"]) ∧
    (get_value n ["brand"] = "" →
      (apply_item_fields item n item_name item_group stock_uom).brand = item.brand) ∧
    (get_value n ["brand"] ≠ "" →
      (apply_item_fields item n item_name item_group stock_uom).brand =
        get_value n ["brand"]) ∧
    (get_value n ["manufacturer"] = "" →
      (apply_item_fields item n item_name item_group stock_uom).manufacturer =
        item.manufacturer) ∧
    (get_value n ["manufacturer"] ≠ "" →
      (apply_item_fields item n item_name item_group stock_uom).manufacturer =
        get_value n ["manufacturer"]) ∧
    (parse_bool (get_value n ["disabled"]) = none →
      (apply_item_fields item n item_name item_group stock_uom).disabled = item.disabled) ∧
    (∀ b, parse_bool (get_value n ["disabled"]) = some b →
      (apply_item_fields item n item_name item_group stock_uom).disabled = some b) ∧
    (parse_bool (get_value n ["is_stock_item", "is_stock"]) = none →
      (apply_item_fields item n item_name item_group stock_uom).is_stock_item =
        item.is_stock_item) ∧
    (∀ b, parse_bool (get_value n ["is_stock_item", "is_stock"]) = some b →
      (apply_item_fields item n item_name item_group stock_uom).is_stock_item = some b) ∧
    (get_value n ["item_tax", "item_tax_template"] = "" →
      (apply_item_fields item n item_name item_group stock_uom).taxes = item.taxes) ∧
    (get_value n ["item_tax", "item_tax_template"] ≠ "" →
      (apply_item_fields item n item_name item_group stock_uom).taxes =
        [get_value n ["item_tax", "item_tax_template"]]) := by
  unfold apply_item_fields
  dsimp only
  refine ⟨?_, ?_, ?_, ?_, ?_, ?_, ?_, ?_, ?_, ?_, ?_, ?_, ?_, ?_, ?_, ?_, ?_, ?_, ?_, ?_, ?_,
    ?_, ?_⟩ <;>
    (split_ifs <;> simp_all [setStrField, setIntField])

/-- C10 witness: an update row carrying only a barcode changes the barcode,
leaves the name unchanged, and leaves the taxes list unchanged. -/
theorem claim_C10_item_update_frame_witness :
    (apply_item_fields widgetDoc [("barcode", "XYZ")] "" "" "").item_name =
        widgetDoc.item_name ∧
      (apply_item_fields widgetDoc [("barcode", "XYZ")] "" "" "").taxes = widgetDoc.taxes ∧
      (apply_item_fields widgetDoc [("barcode", "XYZ")] "" "" "").barcode =
        get_value [("barcode", "XYZ")] ["barcode"] := by
  obtain ⟨h1, h2a, h2b, h3a, h3b, h4a, h4b, h5a, h5b, h6a, h6b, h7a, h7b, h8a, h8b, h9a, h9b,
    h10a, h10b, h11a, h11b, h12a, h12b⟩ :=
    claim_C10_item_update_frame widgetDoc [("barcode", "XYZ")] "" "" ""
  exact ⟨h2a rfl, h12a (by decide), h7b (by decide)⟩

end BulkItemImport
